import Mathlib

/-!
Shallow embedding of the prerequisite-satisfaction resolver, reward tally
engine, cascade effect engine and toggle endpoint of the game-checklist
application (`app/models.py`, `app/routes.py`), together with theorems
settling the specification claims about them.

Conventions of the embedding:
* database rows become Lean structures; `NULL`-able columns become `Option`;
* query result order is represented by the order of the lists held in `State`;
* machine integers of the source are unbounded (`Nat` for ids, `Int` for
  reward amounts);
* the recursive chain-aware functions of `routes.py` take an explicit fuel
  argument and return `none` on fuel exhaustion; sufficiency of the
  canonical fuel is proved separately (the source terminates by the same
  measure argument).
-/

/-- Row of `checklist_items` (`ChecklistItem` in `models.py`); only the
columns the resolver reads are kept. -/
structure Item where
  id : Nat
  checklistId : Nat
  location : Option String
  category : Option String
  deriving DecidableEq

/-- Row of `checklist_item_rewards` (`ItemReward` in `models.py`). -/
structure ItemReward where
  checklistItemId : Nat
  rewardId : Nat
  amount : Int
  deriving DecidableEq

/-- Row of `item_prerequisites` (`ItemPrerequisite` in `models.py`): a
record with at most one populated variant (item, reward, or freeform). -/
structure ItemPrerequisite where
  id : Nat
  itemId : Nat
  prerequisiteItemId : Option Nat
  prerequisiteRewardId : Option Nat
  rewardAmount : Option Int
  consumesReward : Bool
  rewardLocation : Option String
  rewardCategory : Option String
  freeformText : Option String
  deriving DecidableEq

/-- Row of `user_checklists` (`UserChecklist` in `models.py`). -/
structure UserChecklistRow where
  id : Nat
  userId : Nat
  checklistId : Nat
  deriving DecidableEq

/-- Row of `user_progress` (`UserProgress` in `models.py`). -/
structure UserProgress where
  userChecklistId : Nat
  itemId : Nat
  completed : Bool
  completedAt : Option Nat
  deriving DecidableEq

/-- One consistent snapshot of the tables the resolver reads, plus the
clock used for `completed_at`.  List order models database result order. -/
structure State where
  items : List Item
  itemRewards : List ItemReward
  prereqs : List ItemPrerequisite
  userChecklists : List UserChecklistRow
  progresses : List UserProgress
  now : Nat
  deriving DecidableEq

/-- Prerequisites of one item, in relationship order
(`ChecklistItem.prerequisites`). -/
def itemPrerequisites (st : State) (itemId : Nat) : List ItemPrerequisite :=
  st.prereqs.filter (fun p => p.itemId == itemId)

/-- `UserProgress.query.filter_by(user_checklist_id, item_id).first()`. -/
def findProgress (st : State) (uclId itemId : Nat) : Option UserProgress :=
  st.progresses.find? (fun p => p.userChecklistId == uclId && p.itemId == itemId)

/-- `ChecklistItem.query.get(item_id)`. -/
def findItem (st : State) (itemId : Nat) : Option Item :=
  st.items.find? (fun i => i.id == itemId)

/-- `db.session.get(UserChecklist, user_checklist_id)`. -/
def findUserChecklist (st : State) (uclId : Nat) : Option UserChecklistRow :=
  st.userChecklists.find? (fun u => u.id == uclId)

/-- Item ids of the completed progress rows of one tracked instance
(`self.progress_items.filter_by(completed=True)`). -/
def completedItemIds (st : State) (uclId : Nat) : List Nat :=
  (st.progresses.filter (fun p => p.userChecklistId == uclId && p.completed)).map
    (fun p => p.itemId)

/-- SQL filter `column == value` applied only when the filter argument is
present (`if location is not None: query = query.filter(...)`); a `NULL`
column never equals a present filter value. -/
def matchesFilter (filterVal : Option String) (columnVal : Option String) : Bool :=
  match filterVal with
  | none => true
  | some s => columnVal == some s

/-- Join of `ChecklistItem` with `ItemReward` on
`ChecklistItem.id == ItemReward.checklist_item_id`. -/
def rewardJoin (st : State) : List (Item × ItemReward) :=
  (st.items.map (fun i =>
    (st.itemRewards.filter (fun ir => ir.checklistItemId == i.id)).map
      (fun ir => (i, ir)))).flatten

/-- Python `x or 1` applied to the nullable `reward_amount` column: `None`
and `0` are falsy and give the default `1`. -/
def pythonOr1 (a : Option Int) : Int :=
  match a with
  | none => 1
  | some v => if v = 0 then 1 else v

/-- `UserChecklist.get_reward_tally(reward_id, location, category)` from
`models.py`: total amount of one reward granted by completed items of the
instance, under the optional location/category filters on the granting
item's tags. -/
def get_reward_tally (st : State) (uclId : Nat) (rewardId : Nat)
    (location category : Option String) : Int :=
  ((rewardJoin st).filter (fun pr =>
      (completedItemIds st uclId).contains pr.1.id
        && matchesFilter location pr.1.location
        && matchesFilter category pr.1.category
        && pr.2.rewardId == rewardId)).foldl
    (fun acc pr => acc + pr.2.amount) 0

/-- Loop body of `ChecklistItem.are_prerequisites_met` (`models.py`): the
unmet condition of a single prerequisite record in shallow mode. -/
def shallowUnmet (st : State) (uclId : Option Nat) (p : ItemPrerequisite) : Bool :=
  match p.prerequisiteItemId with
  | some reqId =>
    match uclId with
    | some u =>
      match findProgress st u reqId with
      | some prog => !prog.completed
      | none => true
    | none => true
  | none =>
    match p.prerequisiteRewardId with
    | some rid =>
      match uclId with
      | some u =>
        match findUserChecklist st u with
        | some _ =>
          get_reward_tally st u rid p.rewardLocation p.rewardCategory <
            pythonOr1 p.rewardAmount
        | none => true
      | none => true
    | none => false

/-- `ChecklistItem.are_prerequisites_met(user_checklist_id)` from
`models.py`: shallow-mode satisfaction check; returns
`(len(unmet) == 0, unmet)`. -/
def are_prerequisites_met (st : State) (item : Item) (uclId : Option Nat) :
    Bool × List ItemPrerequisite :=
  let unmet := (itemPrerequisites st item.id).foldl
    (fun acc p => if shallowUnmet st uclId p then acc ++ [p] else acc) []
  (unmet.isEmpty, unmet)

/-- Modelled from the spec: `UserChecklist.get_consumed_rewards` is absent
from `src/app` (only the test suite calls it); following spec section 4.2,
`consumed` sums the required amount over consuming (`consumes=true`) reward
prerequisites attached to completed items of the instance, filtered by the
prerequisite's own `location_filter`/`category_filter`. -/
def get_consumed_rewards (st : State) (uclId : Nat) (rewardId : Nat)
    (location category : Option String) : Int :=
  (st.prereqs.filter (fun p =>
      p.consumesReward
        && p.prerequisiteRewardId == some rewardId
        && (completedItemIds st uclId).contains p.itemId
        && matchesFilter location p.rewardLocation
        && matchesFilter category p.rewardCategory)).foldl
    (fun acc p => acc + pythonOr1 p.rewardAmount) 0

/-- Modelled from the spec: `UserChecklist.get_available_rewards` is absent
from `src/app` (only the test suite calls it); following spec section 4.2,
`available = max(0, collected - consumed)`. -/
def get_available_rewards (st : State) (uclId : Nat) (rewardId : Nat)
    (location category : Option String) : Int :=
  max 0 (get_reward_tally st uclId rewardId location category -
    get_consumed_rewards st uclId rewardId location category)

/-- Join rows relevant to `get_available_rewards_with_chaining`
(`routes.py`): completed granting items of the instance carrying the
requested reward, under the prerequisite's location/category filters. -/
def chainRewardJoin (st : State) (uclId rewardId : Nat)
    (location category : Option String) : List (Item × ItemReward) :=
  (rewardJoin st).filter (fun pr =>
    (completedItemIds st uclId).contains pr.1.id
      && pr.2.rewardId == rewardId
      && matchesFilter location pr.1.location
      && matchesFilter category pr.1.category)

/-- Body of `get_available_rewards_with_chaining` (`routes.py`),
parameterised by the recursive chain-aware check `recur` (the source
recursion, at one unit of fuel less): sums grant amounts over the join,
skipping items already in the in-progress set and items whose own
prerequisites are not met; the caller's set is passed read-only (the
source passes `checked_items.copy()` into each recursive call). -/
def availFold (st : State) (uclId rewardId : Nat)
    (location category : Option String) (checked : List Nat)
    (recur : Item → List Nat → Option (Bool × List ItemPrerequisite × List Nat)) :
    Option Int :=
  match findUserChecklist st uclId with
  | none => some 0
  | some _ =>
    (chainRewardJoin st uclId rewardId location category).foldlM
      (fun (tot : Int) pr =>
        if pr.1.id ∈ checked then some tot
        else
          match recur pr.1 checked with
          | some r => some (if r.1 then tot + pr.2.amount else tot)
          | none => none) 0

/-- Loop body of `are_prerequisites_met_with_chaining` (`routes.py`):
processes one prerequisite record, threading the accumulated unmet list
and the shared in-progress set (the source mutates one Python set in
place, so updates made inside an item-prerequisite recursion are visible
to later iterations); `recur` is the recursive chain-aware check. -/
def chainStep (st : State) (uclId : Option Nat)
    (recur : Item → List Nat → Option (Bool × List ItemPrerequisite × List Nat))
    (acc : List ItemPrerequisite × List Nat) (p : ItemPrerequisite) :
    Option (List ItemPrerequisite × List Nat) :=
  match p.prerequisiteItemId with
  | some reqId =>
    match uclId with
    | some u =>
      match findProgress st u reqId with
      | some prog =>
        if prog.completed then
          match findItem st reqId with
          | some reqItem =>
            match recur reqItem acc.2 with
            | some r => some (if r.1 then acc.1 else acc.1 ++ [p], r.2.2)
            | none => none
          | none => some acc
        else some (acc.1 ++ [p], acc.2)
      | none => some (acc.1 ++ [p], acc.2)
    | none => some (acc.1 ++ [p], acc.2)
  | none =>
    match p.prerequisiteRewardId with
    | some rid =>
      match uclId with
      | some u =>
        match availFold st u rid p.rewardLocation p.rewardCategory acc.2 recur with
        | some collected =>
          some (if collected < pythonOr1 p.rewardAmount then acc.1 ++ [p] else acc.1,
            acc.2)
        | none => none
      | none => some (acc.1 ++ [p], acc.2)
    | none => some acc

/-- `are_prerequisites_met_with_chaining(item, user_checklist_id,
checked_items)` from `routes.py`: chain-aware satisfaction check with the
per-call in-progress set as cycle guard.  `none` encodes fuel exhaustion,
which the canonical fuel `chainFuel` never reaches (proved below); the
result carries `(are_met, unmet, final in-progress set)`. -/
def are_prerequisites_met_with_chaining (st : State) (uclId : Option Nat) :
    Nat → Item → List Nat → Option (Bool × List ItemPrerequisite × List Nat)
  | 0, _, _ => none
  | fuel + 1, item, checked =>
    if item.id ∈ checked then some (true, [], checked)
    else
      match (itemPrerequisites st item.id).foldlM
          (chainStep st uclId
            (fun it ch => are_prerequisites_met_with_chaining st uclId fuel it ch))
          ([], item.id :: checked) with
      | some r => some (r.1.isEmpty, r.1, r.2)
      | none => none

/-- `get_available_rewards_with_chaining(user_checklist_id, reward_id,
location, category, checked_items)` from `routes.py`: chain-aware
collected tally of one reward. -/
def get_available_rewards_with_chaining (st : State) (uclId rewardId : Nat)
    (location category : Option String) (checked : List Nat) (fuel : Nat) :
    Option Int :=
  availFold st uclId rewardId location category checked
    (fun it ch => are_prerequisites_met_with_chaining st (some uclId) fuel it ch)

/-- Canonical fuel for the chain-aware check: one unit per item of the
snapshot plus one, matching the source's termination measure (the
in-progress set grows by one item per recursion level). -/
def chainFuel (st : State) : Nat :=
  st.items.length + 1

/-- Effective (chain-aware) satisfied state of an item, starting from an
empty in-progress set. -/
def chainSatisfied (st : State) (uclId : Nat) (fuel : Nat) (item : Item) : Bool :=
  match are_prerequisites_met_with_chaining st (some uclId) fuel item [] with
  | some r => r.1
  | none => false

/-- Modelled from the spec:
`UserChecklist.get_items_with_insufficient_rewards` is absent from
`src/app` (only the test suite calls it); following spec section 4.4, for
every `(reward, location_filter, category_filter)` combination appearing
in a consuming reward prerequisite of the instance's checklist, if
`consumed > collected` for that combination then every completed item
whose consuming reward prerequisite matches that exact combination is
added to the result.  `prereqInChecklist` scopes prerequisites to the
instance's checklist through their owning item. -/
def prereqInChecklist (st : State) (checklistId : Nat) (p : ItemPrerequisite) : Bool :=
  match findItem st p.itemId with
  | some it => it.checklistId == checklistId
  | none => false

/-- The consuming reward prerequisites attached to items of one checklist. -/
def consumingPrereqs (st : State) (checklistId : Nat) : List ItemPrerequisite :=
  st.prereqs.filter (fun p =>
    p.consumesReward && p.prerequisiteRewardId.isSome
      && prereqInChecklist st checklistId p)

/-- Flagging pass for one `(reward, location_filter, category_filter)`
combination: when its consumed total exceeds its collected total, add the
item of every completed consuming prerequisite matching the exact
combination. -/
def flagCombo (st : State) (uclId checklistId : Nat) (acc : List Nat)
    (combo : Nat × Option String × Option String) : List Nat :=
  if get_reward_tally st uclId combo.1 combo.2.1 combo.2.2 <
      get_consumed_rewards st uclId combo.1 combo.2.1 combo.2.2 then
    ((consumingPrereqs st checklistId).filter (fun p =>
        p.prerequisiteRewardId == some combo.1
          && p.rewardLocation == combo.2.1
          && p.rewardCategory == combo.2.2
          && (completedItemIds st uclId).contains p.itemId)).foldl
      (fun a p => if p.itemId ∈ a then a else a ++ [p.itemId]) acc
  else acc

/-- Top level of the highlighter: fold the flagging pass over the
combinations appearing in the checklist's consuming prerequisites. -/
def get_items_with_insufficient_rewards (st : State) (uclId : Nat) : List Nat :=
  match findUserChecklist st uclId with
  | none => []
  | some ucl =>
    (((consumingPrereqs st ucl.checklistId)).map (fun p =>
        (p.prerequisiteRewardId.getD 0, p.rewardLocation, p.rewardCategory))).foldl
      (flagCombo st uclId ucl.checklistId) []

/-- Reward ids granted by one item (`[ir.reward_id for ir in item.rewards]`
in `_add_dependent_items`, `routes.py`). -/
def dependentRewardIds (st : State) (it : Item) : List Nat :=
  (st.itemRewards.filter (fun ir => ir.checklistItemId == it.id)).map
    (fun ir => ir.rewardId)

/-- Second half of `_add_dependent_items` (`routes.py`): enqueue every
checklist item holding a reward prerequisite on a reward granted by the
given item (`item.rewards` is read through `dependentRewardIds`). -/
def addRewardDependents (st : State) (itemId checklistId : Nat)
    (q1 processed : List Nat) : List Nat :=
  match findItem st itemId with
  | none => q1
  | some it =>
    if (dependentRewardIds st it).isEmpty then q1
    else
      (st.items.filter (fun ci => ci.checklistId == checklistId)).foldl
        (fun q ci =>
          if ci.id ∈ processed ∨ ci.id ∈ q then q
          else if (itemPrerequisites st ci.id).any (fun p =>
              match p.prerequisiteRewardId with
              | some r => (dependentRewardIds st it).contains r
              | none => false) then q ++ [ci.id]
          else q) q1

/-- First half of `_add_dependent_items` (`routes.py`): enqueue every item
declaring an item prerequisite on the given item, then hand over to
`addRewardDependents`. -/
def add_dependent_items (st : State) (itemId checklistId : Nat)
    (queue processed : List Nat) : List Nat :=
  addRewardDependents st itemId checklistId
    ((st.prereqs.filter (fun p => p.prerequisiteItemId == some itemId)).foldl
      (fun q pr =>
        if pr.itemId ∈ processed ∨ pr.itemId ∈ q then q else q ++ [pr.itemId]) queue)
    processed

/-- While loop of `get_affected_items_recursive` (`routes.py`): pops queued
item ids, skips already-processed ones, classifies fresh valid items by
their current chain-aware satisfied state, and enqueues their dependents.
`none` encodes fuel exhaustion, never reached with `cascadeFuel` (proved
below). -/
def cascadeLoop (st : State) (uclId checklistId : Nat) :
    Nat → List Nat → List Nat → List Nat → List Nat →
    Option (List Nat × List Nat)
  | 0, _, _, _, _ => none
  | _ + 1, [], _, unlocked, locked => some (unlocked, locked)
  | fuel + 1, itemId :: rest, processed, unlocked, locked =>
    if itemId ∈ processed then
      cascadeLoop st uclId checklistId fuel rest processed unlocked locked
    else
      let processed' := itemId :: processed
      match findItem st itemId with
      | none => cascadeLoop st uclId checklistId fuel rest processed' unlocked locked
      | some item =>
        if item.checklistId ≠ checklistId then
          cascadeLoop st uclId checklistId fuel rest processed' unlocked locked
        else
          match are_prerequisites_met_with_chaining st (some uclId) (chainFuel st)
              item [] with
          | none => none
          | some r =>
            if r.1 then
              if itemId ∈ unlocked then
                cascadeLoop st uclId checklistId fuel rest processed' unlocked locked
              else
                cascadeLoop st uclId checklistId fuel
                  (add_dependent_items st itemId checklistId rest processed')
                  processed' (unlocked ++ [itemId]) locked
            else
              if itemId ∈ locked then
                cascadeLoop st uclId checklistId fuel rest processed' unlocked locked
              else
                cascadeLoop st uclId checklistId fuel
                  (add_dependent_items st itemId checklistId rest processed')
                  processed' unlocked (locked ++ [itemId])

/-- Canonical fuel for the cascade loop, derived from the measure
`(n + 1) * |unprocessed| + |queue|` with `n` the number of item and
prerequisite rows: the processed set grows monotonically and each fresh
item enqueues at most `n` dependents. -/
def cascadeFuel (st : State) : Nat :=
  (st.items.length + st.prereqs.length + 1) * (st.items.length + st.prereqs.length + 1)

/-- Seeding phase of `get_affected_items_recursive` (`routes.py`): the
initial queue holds the items declaring an item prerequisite on the changed
item followed by every checklist item holding any reward prerequisite; the
processed set at that point is just the changed item. -/
def cascadeSeedQueue (st : State) (checklistId changedItemId : Nat) : List Nat :=
  (st.items.filter (fun ci => ci.checklistId == checklistId)).foldl
    (fun q ci =>
      if ci.id == changedItemId ∨ ci.id ∈ [changedItemId] then q
      else if (itemPrerequisites st ci.id).any
          (fun p => p.prerequisiteRewardId.isSome) then
        (if ci.id ∈ q then q else q ++ [ci.id])
      else q)
    ((st.prereqs.filter
        (fun p => p.prerequisiteItemId == some changedItemId)).foldl
      (fun q pr => if pr.itemId ∈ [changedItemId] then q else q ++ [pr.itemId]) [])

/-- Main body of `get_affected_items_recursive` (`routes.py`): run the
cascade loop on the seed queue with the changed item pre-processed. -/
def get_affected_items_recursive (st : State) (checklistId uclId changedItemId : Nat)
    (_isNowCompleted : Bool) : Option (List Nat × List Nat) :=
  match findItem st changedItemId with
  | none => some ([], [])
  | some _ =>
    cascadeLoop st uclId checklistId (cascadeFuel st)
      (cascadeSeedQueue st checklistId changedItemId) [changedItemId] [] []

/-- Stored completed flag of one item in one tracked instance; a missing
progress row counts as not completed. -/
def storedCompleted (st : State) (uclId itemId : Nat) : Bool :=
  match findProgress st uclId itemId with
  | some p => p.completed
  | none => false

/-- Outcome of the toggle endpoint visible to the caller. -/
inductive ToggleResult where
  | notFound : ToggleResult
  | prereqsNotMet : ToggleResult
  | ok (completed : Bool) (unlocked locked : List Nat) : ToggleResult
  deriving DecidableEq

/-- `toggle_progress(checklist_id, item_id)` from `routes.py` (AJAX path),
as a function from the committed snapshot to the caller-visible result and
the next committed snapshot: looks up the user's tracked instance and the
item, creates a missing progress row as not completed, rejects a
completion attempt whose shallow prerequisites are unmet without
committing anything, otherwise flips the row's completed flag (and
`completed_at`), commits, and reports the cascade of the change.
`toggledProgresses` is the committed progress table: the existing row of
the toggled item updated in place, or a fresh row appended when the row
was missing (created not-completed and then flipped). -/
def toggledProgresses (st : State) (uclId itemId : Nat) (newCompleted : Bool) :
    List UserProgress :=
  match findProgress st uclId itemId with
  | some _ =>
    st.progresses.map (fun p =>
      if p.userChecklistId == uclId && p.itemId == itemId then
        { p with completed := newCompleted,
                 completedAt := if newCompleted then some st.now else none }
      else p)
  | none =>
    st.progresses ++
      [⟨uclId, itemId, newCompleted, if newCompleted then some st.now else none⟩]

/-- Success branch of the toggle: the committed snapshot with the flipped
row, and the cascade of the change computed on it (the fuel-exhaustion
branch of the embedding is unreachable with `cascadeFuel`, proved below). -/
def toggleCommit (st : State) (uclId checklistId itemId : Nat)
    (newCompleted : Bool) : ToggleResult × State :=
  match get_affected_items_recursive
      { st with progresses := toggledProgresses st uclId itemId newCompleted }
      checklistId uclId itemId newCompleted with
  | some e =>
    (ToggleResult.ok newCompleted e.1 e.2,
     { st with progresses := toggledProgresses st uclId itemId newCompleted })
  | none =>
    (ToggleResult.ok newCompleted [] [],
     { st with progresses := toggledProgresses st uclId itemId newCompleted })

/-- Entry point of `toggle_progress(checklist_id, item_id)`: lookups,
prerequisite gate in the completing direction, then commit. -/
def toggle_progress (st : State) (userId checklistId itemId : Nat) :
    ToggleResult × State :=
  match st.userChecklists.find?
      (fun u => u.userId == userId && u.checklistId == checklistId) with
  | none => (ToggleResult.notFound, st)
  | some ucl =>
    match findItem st itemId with
    | none => (ToggleResult.notFound, st)
    | some item =>
      if item.checklistId ≠ checklistId then (ToggleResult.notFound, st)
      else if !storedCompleted st ucl.id itemId
          && !(are_prerequisites_met st item (some ucl.id)).1 then
        (ToggleResult.prereqsNotMet, st)
      else
        toggleCommit st ucl.id checklistId itemId
          (!storedCompleted st ucl.id itemId)

/-- Prerequisite record whose populated variant is another item. -/
def mkPrereqItem (pid iid req : Nat) : ItemPrerequisite :=
  ⟨pid, iid, some req, none, none, false, none, none, none⟩

/-- Prerequisite record whose populated variant is a reward threshold. -/
def mkPrereqReward (pid iid rid : Nat) (amt : Int) (consumes : Bool) :
    ItemPrerequisite :=
  ⟨pid, iid, none, some rid, some amt, consumes, none, none, none⟩

/-- Untagged item of checklist 1. -/
def mkItem (iid : Nat) : Item := ⟨iid, 1, none, none⟩

/-- Progress row of tracked instance 5. -/
def mkProg (iid : Nat) (c : Bool) : UserProgress := ⟨5, iid, c, none⟩

/-- Reward scenario of the test suite
(`test_insufficient_rewards_highlighting.py`): items 1 and 2 each grant 2
units of reward 10; item 3 consumes 1 unit, item 4 consumes 2 units; all
four completed in tracked instance 5. -/
def rewardScenario : State :=
  { items := [mkItem 1, mkItem 2, mkItem 3, mkItem 4]
    itemRewards := [⟨1, 10, 2⟩, ⟨2, 10, 2⟩]
    prereqs := [mkPrereqReward 1 3 10 1 true, mkPrereqReward 2 4 10 2 true]
    userChecklists := [⟨5, 7, 1⟩]
    progresses := [mkProg 1 true, mkProg 2 true, mkProg 3 true, mkProg 4 true]
    now := 0 }

/-- The reward scenario after unchecking item 1: collected 2, consumed 3,
available clamped to 0; consumers 3 and 4 are over the collected pool. -/
def deficitScenario : State :=
  { rewardScenario with
    progresses := [mkProg 1 false, mkProg 2 true, mkProg 3 true, mkProg 4 true] }

/-- Consumption-versus-gating snapshot: item 1 grants 2 units of reward 10;
item 3 holds a completed consuming prerequisite for 2 units; item 2 is
gated by a (non-consuming) prerequisite of 2 units of the same reward.
Items 1 and 3 are completed, so the whole pool is consumed, yet the raw
collected tally still holds 2 units. -/
def consumedPoolScenario : State :=
  { items := [mkItem 1, mkItem 2, mkItem 3]
    itemRewards := [⟨1, 10, 2⟩]
    prereqs := [mkPrereqReward 1 2 10 2 false, mkPrereqReward 2 3 10 2 true]
    userChecklists := [⟨5, 7, 1⟩]
    progresses := [mkProg 1 true, mkProg 2 false, mkProg 3 true]
    now := 0 }

/-- Cascade snapshot after completing item 1: item 2 needs 1 unit of
reward 10, granted by the completed and satisfied item 4, so item 2 was
satisfied both before and after the toggle of item 1. -/
def steadyScenario : State :=
  { items := [mkItem 1, mkItem 2, mkItem 4]
    itemRewards := [⟨4, 10, 1⟩]
    prereqs := [mkPrereqReward 1 2 10 1 false]
    userChecklists := [⟨5, 7, 1⟩]
    progresses := [mkProg 1 true, mkProg 2 false, mkProg 4 true]
    now := 0 }

/-- The cascade snapshot as it was before completing item 1. -/
def steadyScenarioBefore : State :=
  { steadyScenario with
    progresses := [mkProg 1 false, mkProg 2 false, mkProg 4 true] }

/-- Stale-chain snapshot: item 1 requires item 2, item 2 requires item 3;
item 2 carries a stale-true completed flag while item 3 is incomplete, so
the shallow check accepts item 1 while the chain-aware check rejects it. -/
def staleChainScenario : State :=
  { items := [mkItem 1, mkItem 2, mkItem 3]
    itemRewards := []
    prereqs := [mkPrereqItem 1 1 2, mkPrereqItem 2 2 3]
    userChecklists := [⟨5, 7, 1⟩]
    progresses := [mkProg 1 false, mkProg 2 true, mkProg 3 false]
    now := 0 }

/-- Cyclic snapshot: item 1 requires item 2 and item 2 requires item 1,
both completed (spec section 8, cycle safety). -/
def cyclicScenario : State :=
  { items := [mkItem 1, mkItem 2]
    itemRewards := []
    prereqs := [mkPrereqItem 1 1 2, mkPrereqItem 2 2 1]
    userChecklists := [⟨5, 7, 1⟩]
    progresses := [mkProg 1 true, mkProg 2 true]
    now := 0 }

/-- Rejection snapshot: item 1 requires the incomplete item 2. -/
def blockedScenario : State :=
  { items := [mkItem 1, mkItem 2]
    itemRewards := []
    prereqs := [mkPrereqItem 1 1 2]
    userChecklists := [⟨5, 7, 1⟩]
    progresses := [mkProg 1 false, mkProg 2 false]
    now := 0 }

/-- Informational-only snapshot: item 1 carries one freeform prerequisite
and one record with no populated variant. -/
def freeformScenario : State :=
  { items := [mkItem 1]
    itemRewards := []
    prereqs := [⟨1, 1, none, none, none, false, none, none, some "Talk to the wizard"⟩,
      ⟨2, 1, none, none, none, false, none, none, none⟩]
    userChecklists := [⟨5, 7, 1⟩]
    progresses := [mkProg 1 false]
    now := 0 }

/-- Stale-granter snapshot: item 1 grants 3 units of reward 10 but requires
the incomplete item 2, so its completed flag is stale-true and its grant
must not count in chained mode. -/
def staleGrantScenario : State :=
  { items := [mkItem 1, mkItem 2]
    itemRewards := [⟨1, 10, 3⟩]
    prereqs := [mkPrereqItem 1 1 2]
    userChecklists := [⟨5, 7, 1⟩]
    progresses := [mkProg 1 true, mkProg 2 false]
    now := 0 }

/-- Number of item rows whose id is not yet in the in-progress set: the
termination measure of the source recursion. -/
def chainMeasure (st : State) (checked : List Nat) : Nat :=
  ((st.items.map (fun i => i.id)).filter (fun a => !decide (a ∈ checked))).length

/-- Every id the cascade can ever enqueue: item ids of the snapshot and
owner ids of prerequisite rows. -/
def cascadeUniverse (st : State) : List Nat :=
  st.items.map (fun i => i.id) ++ st.prereqs.map (fun p => p.itemId)

/-- Number of universe ids not yet processed: first component of the
cascade termination measure. -/
def unprocessedCount (st : State) (processed : List Nat) : Nat :=
  ((cascadeUniverse st).filter (fun a => !decide (a ∈ processed))).length

/-- Chain-aware collected amount as the spec describes it: the sum of
grant amounts over completed, filter-matching granting items whose own
prerequisites are met by the chain-aware check started from an empty
in-progress set. -/
def collectedChainedSpec (st : State) (uclId rewardId : Nat)
    (location category : Option String) (fuel : Nat) : Int :=
  (((chainRewardJoin st uclId rewardId location category).filter
      (fun pr => chainSatisfied st uclId fuel pr.1)).map
    (fun pr => pr.2.amount)).sum

/-! ## Generic list lemmas -/

/-- An append-if-true fold computes a filter. -/
theorem foldl_append_ite {α : Type} (f : α → Bool) :
    ∀ (l acc : List α),
      l.foldl (fun acc p => if f p then acc ++ [p] else acc) acc = acc ++ l.filter f := by
  intro l
  induction l with
  | nil => intro acc; simp
  | cons p l ih =>
    intro acc
    by_cases h : f p
    · simp [h, ih]
    · simp [h, ih]

/-- Filtering by exclusion from a larger set keeps fewer elements. -/
theorem filter_not_mem_length_le (l : List Nat) :
    ∀ (c c' : List Nat), c ⊆ c' →
      (l.filter (fun a => !decide (a ∈ c'))).length ≤
        (l.filter (fun a => !decide (a ∈ c))).length := by
  induction l with
  | nil => intro c c' _; simp
  | cons a l ih =>
    intro c c' hcc
    simp only [List.filter_cons]
    by_cases h : a ∈ c'
    · by_cases h2 : a ∈ c
      · simpa [h, h2] using ih c c' hcc
      · simp only [h, h2, decide_True, decide_False, Bool.not_true, Bool.not_false,
          if_false, if_true, List.length_cons]
        exact Nat.le_trans (ih c c' hcc) (Nat.le_succ _)
    · have h2 : a ∉ c := fun hmem => h (hcc hmem)
      simp only [h, h2, decide_True, decide_False, Bool.not_true, Bool.not_false,
        if_false, if_true, List.length_cons]
      exact Nat.succ_le_succ (ih c c' hcc)

/-- Excluding one more element that the list really holds strictly shrinks
the filtered length. -/
theorem filter_not_mem_length_lt (a : Nat) :
    ∀ (l : List Nat), a ∈ l → ∀ (c : List Nat), a ∉ c →
      (l.filter (fun x => !decide (x ∈ a :: c))).length <
        (l.filter (fun x => !decide (x ∈ c))).length := by
  intro l
  induction l with
  | nil => intro h; simp at h
  | cons b l ih =>
    intro hmem c hnc
    simp only [List.filter_cons]
    rcases List.mem_cons.mp hmem with hb | hb
    · subst hb
      have h1 : a ∈ a :: c := List.mem_cons_self a c
      simp only [h1, hnc, decide_True, decide_False, Bool.not_true, Bool.not_false,
        if_false, if_true, List.length_cons, Bool.false_eq_true]
      have := filter_not_mem_length_le l c (a :: c) (List.subset_cons_self a c)
      omega
    · by_cases hbc : b ∈ a :: c
      · by_cases hbc2 : b ∈ c
        · simpa [hbc, hbc2] using ih hb c hnc
        · simp only [hbc, hbc2, decide_True, decide_False, Bool.not_true, Bool.not_false,
            if_false, if_true, List.length_cons, Bool.false_eq_true]
          have := ih hb c hnc
          omega
      · have hbc2 : b ∉ c := fun hx => hbc (List.mem_cons_of_mem a hx)
        simp only [hbc, hbc2, decide_True, decide_False, Bool.not_true, Bool.not_false,
          if_false, if_true, List.length_cons]
        exact Nat.succ_lt_succ (ih hb c hnc)

/-! ## Shallow resolver lemmas -/

/-- The shallow check collects exactly the prerequisites whose unmet
condition holds, in list order. -/
theorem are_prerequisites_met_eq (st : State) (item : Item) (uclId : Option Nat) :
    are_prerequisites_met st item uclId =
      (((itemPrerequisites st item.id).filter (shallowUnmet st uclId)).isEmpty,
        (itemPrerequisites st item.id).filter (shallowUnmet st uclId)) := by
  unfold are_prerequisites_met
  rw [foldl_append_ite]
  simp

/-- Membership in the shallow unmet list. -/
theorem mem_shallow_unmet (st : State) (item : Item) (uclId : Option Nat)
    (p : ItemPrerequisite) :
    p ∈ (are_prerequisites_met st item uclId).2 ↔
      p ∈ itemPrerequisites st item.id ∧ shallowUnmet st uclId p = true := by
  rw [are_prerequisites_met_eq]
  exact List.mem_filter

/-- A prerequisite with no populated item or reward variant never triggers
the shallow unmet condition. -/
theorem shallowUnmet_populated (st : State) (uclId : Option Nat)
    (p : ItemPrerequisite) (h : shallowUnmet st uclId p = true) :
    p.prerequisiteItemId.isSome ∨ p.prerequisiteRewardId.isSome := by
  unfold shallowUnmet at h
  cases hit : p.prerequisiteItemId with
  | some r => exact Or.inl (by simp [hit])
  | none =>
    cases hrw : p.prerequisiteRewardId with
    | some r => exact Or.inr (by simp [hrw])
    | none => rw [hit, hrw] at h; simp at h

/-! ## Membership helpers -/

/-- A looked-up item is a row of the snapshot. -/
theorem mem_of_findItem {st : State} {itemId : Nat} {it : Item}
    (h : findItem st itemId = some it) : it ∈ st.items :=
  List.mem_of_find?_eq_some h

/-- The first component of a reward-join row is an item row. -/
theorem mem_items_of_rewardJoin {st : State} {pr : Item × ItemReward}
    (h : pr ∈ rewardJoin st) : pr.1 ∈ st.items := by
  unfold rewardJoin at h
  rw [List.mem_flatten] at h
  obtain ⟨s, hs, hpr⟩ := h
  rw [List.mem_map] at hs
  obtain ⟨i, hi, rfl⟩ := hs
  rw [List.mem_map] at hpr
  obtain ⟨ir, _, rfl⟩ := hpr
  exact hi

/-- The first component of a filtered chain-join row is an item row. -/
theorem mem_items_of_chainRewardJoin {st : State} {uclId rewardId : Nat}
    {location category : Option String} {pr : Item × ItemReward}
    (h : pr ∈ chainRewardJoin st uclId rewardId location category) :
    pr.1 ∈ st.items :=
  mem_items_of_rewardJoin (List.mem_filter.mp h).1

/-! ## Chain-aware resolver: in-progress set monotonicity -/

theorem chainStep_checked_mono (st : State) (uclId : Option Nat)
    (recur : Item → List Nat → Option (Bool × List ItemPrerequisite × List Nat))
    (Hmono : ∀ it ch r, recur it ch = some r → ch ⊆ r.2.2)
    (acc : List ItemPrerequisite × List Nat) (p : ItemPrerequisite)
    (r : List ItemPrerequisite × List Nat)
    (h : chainStep st uclId recur acc p = some r) : acc.2 ⊆ r.2 := by
  cases hit : p.prerequisiteItemId with
  | some reqId =>
    cases uclId with
    | some u =>
      cases hprog : findProgress st u reqId with
      | some prog =>
        cases hc : prog.completed with
        | true =>
          cases hfind : findItem st reqId with
          | some reqItem =>
            cases hrec : recur reqItem acc.2 with
            | some rr =>
              simp only [chainStep, hit, hprog, hc, hfind, hrec, if_true] at h
              cases h
              exact Hmono _ _ _ hrec
            | none => simp [chainStep, hit, hprog, hc, hfind, hrec] at h
          | none =>
            simp only [chainStep, hit, hprog, hc, hfind, if_true] at h
            cases h
            exact List.Subset.refl _
        | false =>
          simp only [chainStep, hit, hprog, hc, Bool.false_eq_true, if_false] at h
          cases h
          exact List.Subset.refl _
      | none =>
        simp only [chainStep, hit, hprog] at h
        cases h
        exact List.Subset.refl _
    | none =>
      simp only [chainStep, hit] at h
      cases h
      exact List.Subset.refl _
  | none =>
    cases hrw : p.prerequisiteRewardId with
    | some rid =>
      cases uclId with
      | some u =>
        cases hav : availFold st u rid p.rewardLocation p.rewardCategory acc.2 recur with
        | some collected =>
          simp only [chainStep, hit, hrw, hav] at h
          cases h
          exact List.Subset.refl _
        | none => simp [chainStep, hit, hrw, hav] at h
      | none =>
        simp only [chainStep, hit, hrw] at h
        cases h
        exact List.Subset.refl _
    | none =>
      simp only [chainStep, hit, hrw] at h
      cases h
      exact List.Subset.refl _

theorem foldlM_chainStep_checked_mono (st : State) (uclId : Option Nat)
    (recur : Item → List Nat → Option (Bool × List ItemPrerequisite × List Nat))
    (Hmono : ∀ it ch r, recur it ch = some r → ch ⊆ r.2.2) :
    ∀ (l : List ItemPrerequisite) (acc r : List ItemPrerequisite × List Nat),
      l.foldlM (chainStep st uclId recur) acc = some r → acc.2 ⊆ r.2 := by
  intro l
  induction l with
  | nil =>
    intro acc r h
    simp only [List.foldlM_nil, pure, Option.some.injEq] at h
    cases h
    exact List.Subset.refl _
  | cons p l ih =>
    intro acc r h
    rw [List.foldlM_cons] at h
    cases hstep : chainStep st uclId recur acc p with
    | some acc' =>
      rw [hstep] at h
      simp only [Option.bind_eq_bind, Option.some_bind] at h
      exact List.Subset.trans (chainStep_checked_mono st uclId recur Hmono acc p acc' hstep)
        (ih acc' r h)
    | none => rw [hstep] at h; simp at h

theorem chaining_checked_mono (st : State) (uclId : Option Nat) :
    ∀ (fuel : Nat) (item : Item) (checked : List Nat)
      (r : Bool × List ItemPrerequisite × List Nat),
      are_prerequisites_met_with_chaining st uclId fuel item checked = some r →
      checked ⊆ r.2.2 := by
  intro fuel
  induction fuel with
  | zero => intro item checked r h; simp [are_prerequisites_met_with_chaining] at h
  | succ fuel ih =>
    intro item checked r h
    rw [are_prerequisites_met_with_chaining] at h
    by_cases hmem : item.id ∈ checked
    · rw [if_pos hmem] at h
      cases h
      exact List.Subset.refl _
    · rw [if_neg hmem] at h
      cases hfold : (itemPrerequisites st item.id).foldlM
          (chainStep st uclId
            (fun it ch => are_prerequisites_met_with_chaining st uclId fuel it ch))
          ([], item.id :: checked) with
      | some rr =>
        rw [hfold] at h
        cases h
        exact List.Subset.trans (List.subset_cons_self _ _)
          (foldlM_chainStep_checked_mono st uclId _ (fun it ch r hr => ih it ch r hr) _ _ _ hfold)
      | none => rw [hfold] at h; simp at h

/-! ## Chain-aware resolver: fuel sufficiency -/

theorem chainMeasure_anti (st : State) {c c' : List Nat} (h : c ⊆ c') :
    chainMeasure st c' ≤ chainMeasure st c :=
  filter_not_mem_length_le _ c c' h

theorem chainMeasure_cons_lt (st : State) {item : Item} (hmem : item ∈ st.items)
    {checked : List Nat} (hnc : item.id ∉ checked) :
    chainMeasure st (item.id :: checked) < chainMeasure st checked := by
  unfold chainMeasure
  exact filter_not_mem_length_lt item.id _ (List.mem_map_of_mem (fun i => i.id) hmem)
    checked hnc

theorem availFold_isSome (st : State) (uclId rewardId : Nat)
    (location category : Option String) (checked : List Nat)
    (recur : Item → List Nat → Option (Bool × List ItemPrerequisite × List Nat))
    (Hrec : ∀ it, it ∈ st.items → (recur it checked).isSome) :
    (availFold st uclId rewardId location category checked recur).isSome := by
  unfold availFold
  cases findUserChecklist st uclId with
  | none => simp
  | some ucl =>
    simp only
    have : ∀ (l : List (Item × ItemReward)), (∀ pr ∈ l, pr.1 ∈ st.items) →
        ∀ (tot : Int),
        (l.foldlM (fun (tot : Int) pr =>
          if pr.1.id ∈ checked then some tot
          else
            match recur pr.1 checked with
            | some r => some (if r.1 then tot + pr.2.amount else tot)
            | none => none) tot).isSome := by
      intro l
      induction l with
      | nil => intro _ tot; simp [List.foldlM_nil]
      | cons pr l ih =>
        intro hl tot
        rw [List.foldlM_cons]
        by_cases hc : pr.1.id ∈ checked
        · rw [if_pos hc]
          simp only [Option.bind_eq_bind, Option.some_bind]
          exact ih (fun q hq => hl q (List.mem_cons_of_mem pr hq)) tot
        · rw [if_neg hc]
          cases hrec : recur pr.1 checked with
          | some r =>
            simp only [Option.bind_eq_bind, Option.some_bind]
            exact ih (fun q hq => hl q (List.mem_cons_of_mem pr hq)) _
          | none =>
            have := Hrec pr.1 (hl pr (List.mem_cons_self pr l))
            rw [hrec] at this
            simp at this
    exact this _ (fun pr hpr => mem_items_of_chainRewardJoin hpr) 0

theorem chainStep_isSome (st : State) (uclId : Option Nat)
    (recur : Item → List Nat → Option (Bool × List ItemPrerequisite × List Nat))
    (acc : List ItemPrerequisite × List Nat) (p : ItemPrerequisite)
    (Hrec : ∀ it, it ∈ st.items → (recur it acc.2).isSome) :
    (chainStep st uclId recur acc p).isSome := by
  cases hit : p.prerequisiteItemId with
  | some reqId =>
    cases uclId with
    | some u =>
      cases hprog : findProgress st u reqId with
      | some prog =>
        cases hc : prog.completed with
        | true =>
          cases hfind : findItem st reqId with
          | some reqItem =>
            have := Hrec reqItem (mem_of_findItem hfind)
            cases hrec : recur reqItem acc.2 with
            | some rr => simp [chainStep, hit, hprog, hc, hfind, hrec]
            | none => rw [hrec] at this; simp at this
          | none => simp [chainStep, hit, hprog, hc, hfind]
        | false => simp [chainStep, hit, hprog, hc]
      | none => simp [chainStep, hit, hprog]
    | none => simp [chainStep, hit]
  | none =>
    cases hrw : p.prerequisiteRewardId with
    | some rid =>
      cases uclId with
      | some u =>
        have hav := availFold_isSome st u rid p.rewardLocation p.rewardCategory acc.2
          recur Hrec
        cases havq : availFold st u rid p.rewardLocation p.rewardCategory acc.2 recur with
        | some collected => simp [chainStep, hit, hrw, havq]
        | none => rw [havq] at hav; simp at hav
      | none => simp [chainStep, hit, hrw]
    | none => simp [chainStep, hit, hrw]

theorem foldlM_chainStep_isSome (st : State) (uclId : Option Nat)
    (recur : Item → List Nat → Option (Bool × List ItemPrerequisite × List Nat))
    (Hmono : ∀ it ch r, recur it ch = some r → ch ⊆ r.2.2)
    (base : List Nat)
    (Hrec : ∀ it ch, it ∈ st.items → base ⊆ ch → (recur it ch).isSome) :
    ∀ (l : List ItemPrerequisite) (acc : List ItemPrerequisite × List Nat),
      base ⊆ acc.2 → (l.foldlM (chainStep st uclId recur) acc).isSome := by
  intro l
  induction l with
  | nil => intro acc _; simp [List.foldlM_nil]
  | cons p l ih =>
    intro acc hbase
    rw [List.foldlM_cons]
    have hstep := chainStep_isSome st uclId recur acc p
      (fun it hit => Hrec it acc.2 hit hbase)
    cases hs : chainStep st uclId recur acc p with
    | some acc' =>
      simp only [Option.bind_eq_bind, Option.some_bind]
      exact ih acc' (List.Subset.trans hbase
        (chainStep_checked_mono st uclId recur Hmono acc p acc' hs))
    | none => rw [hs] at hstep; simp at hstep

theorem chaining_isSome (st : State) (uclId : Option Nat) :
    ∀ (fuel : Nat) (item : Item) (checked : List Nat), item ∈ st.items →
      chainMeasure st checked + 1 ≤ fuel →
      (are_prerequisites_met_with_chaining st uclId fuel item checked).isSome := by
  intro fuel
  induction fuel with
  | zero => intro item checked _ hf; omega
  | succ fuel ih =>
    intro item checked hitem hf
    rw [are_prerequisites_met_with_chaining]
    by_cases hmem : item.id ∈ checked
    · rw [if_pos hmem]; simp
    · rw [if_neg hmem]
      have hbase : chainMeasure st (item.id :: checked) < chainMeasure st checked :=
        chainMeasure_cons_lt st hitem hmem
      have hfold := foldlM_chainStep_isSome st uclId
        (fun it ch => are_prerequisites_met_with_chaining st uclId fuel it ch)
        (fun it ch r hr => chaining_checked_mono st uclId fuel it ch r hr)
        (item.id :: checked)
        (fun it ch hit hsub => ih it ch hit (by
          have h1 : chainMeasure st ch ≤ chainMeasure st (item.id :: checked) :=
            chainMeasure_anti st hsub
          omega))
        (itemPrerequisites st item.id) ([], item.id :: checked)
        (List.Subset.refl _)
      cases hfoldq : (itemPrerequisites st item.id).foldlM
          (chainStep st uclId
            (fun it ch => are_prerequisites_met_with_chaining st uclId fuel it ch))
          ([], item.id :: checked) with
      | some rr => simp [hfoldq]
      | none => rw [hfoldq] at hfold; simp at hfold

/-- With the canonical fuel the chain-aware check always completes on an
item of the snapshot, whatever the starting in-progress set. -/
theorem chaining_chainFuel_isSome (st : State) (uclId : Option Nat) (item : Item)
    (hitem : item ∈ st.items) :
    (are_prerequisites_met_with_chaining st uclId (chainFuel st) item []).isSome := by
  apply chaining_isSome st uclId (chainFuel st) item [] hitem
  unfold chainMeasure chainFuel
  have := List.length_filter_le (fun a => !decide (a ∈ ([] : List Nat)))
    (st.items.map (fun i => i.id))
  simp only [List.length_map] at this
  omega

/-! ## Cascade engine: fuel sufficiency -/

theorem unprocessedCount_le (st : State) (processed : List Nat) :
    unprocessedCount st processed ≤ st.items.length + st.prereqs.length := by
  unfold unprocessedCount
  have h1 := List.length_filter_le (fun a => !decide (a ∈ processed)) (cascadeUniverse st)
  have h2 : (cascadeUniverse st).length = st.items.length + st.prereqs.length := by
    simp [cascadeUniverse]
  omega

theorem unprocessedCount_cons_lt (st : State) {a : Nat}
    (ha : a ∈ cascadeUniverse st) {processed : List Nat} (hnp : a ∉ processed) :
    unprocessedCount st (a :: processed) < unprocessedCount st processed := by
  unfold unprocessedCount
  exact filter_not_mem_length_lt a _ ha processed hnp

/-- Fold invariant principle tracking membership of the traversed list. -/
theorem foldl_preserves {α β : Type} (P : β → Prop) (f : β → α → β) :
    ∀ (l : List α) (b : β), P b → (∀ b a, a ∈ l → P b → P (f b a)) →
      P (l.foldl f b) := by
  intro l
  induction l with
  | nil => intro b hb _; exact hb
  | cons a l ih =>
    intro b hb hf
    exact ih (f b a) (hf b a (List.mem_cons_self a l) hb)
      (fun b' a' ha' hb' => hf b' a' (List.mem_cons_of_mem a ha') hb')

/-- A fold whose step grows the list by at most one element. -/
theorem foldl_length_le {α : Type} (f : List Nat → α → List Nat)
    (hf : ∀ q a, (f q a).length ≤ q.length + 1) :
    ∀ (l : List α) (q : List Nat), (l.foldl f q).length ≤ q.length + l.length := by
  intro l
  induction l with
  | nil => intro q; simp
  | cons a l ih =>
    intro q
    have h1 := ih (f q a)
    have h2 := hf q a
    simp only [List.foldl_cons, List.length_cons]
    omega

theorem addRewardDependents_universe (st : State) (itemId checklistId : Nat)
    (q1 processed : List Nat) (hq : ∀ a ∈ q1, a ∈ cascadeUniverse st) :
    ∀ a ∈ addRewardDependents st itemId checklistId q1 processed,
      a ∈ cascadeUniverse st := by
  unfold addRewardDependents
  split
  · exact hq
  · split
    · exact hq
    · apply foldl_preserves (fun q => ∀ a ∈ q, a ∈ cascadeUniverse st) _ _ _ hq
      intro q ci hci hqq a ha
      split at ha
      · exact hqq a ha
      · split at ha
        · rcases List.mem_append.mp ha with h | h
          · exact hqq a h
          · have : a = ci.id := by simpa using h
            subst this
            have hmem : ci ∈ st.items := (List.mem_filter.mp hci).1
            exact List.mem_append.mpr
              (Or.inl (List.mem_map_of_mem (fun i => i.id) hmem))
        · exact hqq a ha

theorem add_dependent_items_universe (st : State) (itemId checklistId : Nat)
    (queue processed : List Nat) (hq : ∀ a ∈ queue, a ∈ cascadeUniverse st) :
    ∀ a ∈ add_dependent_items st itemId checklistId queue processed,
      a ∈ cascadeUniverse st := by
  unfold add_dependent_items
  apply addRewardDependents_universe
  apply foldl_preserves (fun q => ∀ a ∈ q, a ∈ cascadeUniverse st) _ _ queue hq
  intro q pr hpr hqq a ha
  split at ha
  · exact hqq a ha
  · rcases List.mem_append.mp ha with h | h
    · exact hqq a h
    · have : a = pr.itemId := by simpa using h
      subst this
      have hmem : pr ∈ st.prereqs := (List.mem_filter.mp hpr).1
      exact List.mem_append.mpr (Or.inr (List.mem_map_of_mem (fun p => p.itemId) hmem))

theorem addRewardDependents_length (st : State) (itemId checklistId : Nat)
    (q1 processed : List Nat) :
    (addRewardDependents st itemId checklistId q1 processed).length ≤
      q1.length + st.items.length := by
  unfold addRewardDependents
  split
  · omega
  · rename_i it heq
    split
    · omega
    · have h3 := foldl_length_le
        (fun q (ci : Item) =>
          if ci.id ∈ processed ∨ ci.id ∈ q then q
          else if (itemPrerequisites st ci.id).any (fun p =>
              match p.prerequisiteRewardId with
              | some r => (dependentRewardIds st it).contains r
              | none => false) then q ++ [ci.id]
          else q)
        (by
          intro q ci
          show (if ci.id ∈ processed ∨ ci.id ∈ q then q
            else if (itemPrerequisites st ci.id).any (fun p =>
                match p.prerequisiteRewardId with
                | some r => (dependentRewardIds st it).contains r
                | none => false) then q ++ [ci.id]
            else q).length ≤ q.length + 1
          split
          · omega
          · split
            · simp
            · omega)
        (st.items.filter (fun ci => ci.checklistId == checklistId)) q1
      have h4 := List.length_filter_le (fun ci => ci.checklistId == checklistId) st.items
      omega

theorem add_dependent_items_length (st : State) (itemId checklistId : Nat)
    (queue processed : List Nat) :
    (add_dependent_items st itemId checklistId queue processed).length ≤
      queue.length + st.prereqs.length + st.items.length := by
  unfold add_dependent_items
  have h0 := addRewardDependents_length st itemId checklistId
    ((st.prereqs.filter (fun p => p.prerequisiteItemId == some itemId)).foldl
      (fun q pr =>
        if pr.itemId ∈ processed ∨ pr.itemId ∈ q then q else q ++ [pr.itemId]) queue)
    processed
  have h1 := foldl_length_le
    (fun q (pr : ItemPrerequisite) =>
      if pr.itemId ∈ processed ∨ pr.itemId ∈ q then q else q ++ [pr.itemId])
    (by
      intro q pr
      show (if pr.itemId ∈ processed ∨ pr.itemId ∈ q then q
        else q ++ [pr.itemId]).length ≤ q.length + 1
      split
      · omega
      · simp)
    (st.prereqs.filter (fun p => p.prerequisiteItemId == some itemId)) queue
  have h2 := List.length_filter_le (fun p => p.prerequisiteItemId == some itemId)
    st.prereqs
  omega

theorem cascadeLoop_isSome (st : State) (uclId checklistId : Nat) :
    ∀ (fuel : Nat) (queue processed unlocked locked : List Nat),
      (∀ a ∈ queue, a ∈ cascadeUniverse st) →
      (st.items.length + st.prereqs.length + 1) * unprocessedCount st processed
        + queue.length + 1 ≤ fuel →
      (cascadeLoop st uclId checklistId fuel queue processed unlocked locked).isSome := by
  intro fuel
  induction fuel with
  | zero => intro queue processed _ _ _ hf; omega
  | succ fuel ih =>
    intro queue processed unlocked locked hq hf
    cases queue with
    | nil => simp [cascadeLoop]
    | cons itemId rest =>
      have hrest : ∀ a ∈ rest, a ∈ cascadeUniverse st :=
        fun a ha => hq a (List.mem_cons_of_mem itemId ha)
      simp only [cascadeLoop]
      by_cases hp : itemId ∈ processed
      · rw [if_pos hp]
        apply ih rest processed unlocked locked hrest
        simp only [List.length_cons] at hf
        omega
      · rw [if_neg hp]
        have hUlt : unprocessedCount st (itemId :: processed) + 1 ≤
            unprocessedCount st processed :=
          unprocessedCount_cons_lt st (hq itemId (List.mem_cons_self itemId rest)) hp
        have hmul : (st.items.length + st.prereqs.length + 1) *
              unprocessedCount st (itemId :: processed)
              + (st.items.length + st.prereqs.length + 1) ≤
            (st.items.length + st.prereqs.length + 1) *
              unprocessedCount st processed := by
          have h := Nat.mul_le_mul_left (st.items.length + st.prereqs.length + 1) hUlt
          rw [Nat.mul_add, Nat.mul_one] at h
          exact h
        simp only [List.length_cons] at hf
        split
        · apply ih rest (itemId :: processed) unlocked locked hrest
          omega
        · rename_i item hfind
          by_cases hcl : item.checklistId ≠ checklistId
          · rw [if_pos hcl]
            apply ih rest (itemId :: processed) unlocked locked hrest
            omega
          · rw [if_neg hcl]
            have hchain := chaining_chainFuel_isSome st (some uclId) item
              (mem_of_findItem hfind)
            split
            · rename_i hcq
              rw [hcq] at hchain
              simp at hchain
            · rename_i r hcq
              have hlen := add_dependent_items_length st itemId checklistId rest
                (itemId :: processed)
              by_cases hr1 : r.1 = true
              · rw [if_pos hr1]
                by_cases hmemu : itemId ∈ unlocked
                · rw [if_pos hmemu]
                  apply ih rest (itemId :: processed) unlocked locked hrest
                  omega
                · rw [if_neg hmemu]
                  apply ih _ (itemId :: processed) (unlocked ++ [itemId]) locked
                    (add_dependent_items_universe st itemId checklistId rest
                      (itemId :: processed) hrest)
                  omega
              · rw [if_neg hr1]
                by_cases hmeml : itemId ∈ locked
                · rw [if_pos hmeml]
                  apply ih rest (itemId :: processed) unlocked locked hrest
                  omega
                · rw [if_neg hmeml]
                  apply ih _ (itemId :: processed) unlocked (locked ++ [itemId])
                    (add_dependent_items_universe st itemId checklistId rest
                      (itemId :: processed) hrest)
                  omega

theorem cascadeSeedQueue_universe (st : State) (checklistId changedItemId : Nat) :
    ∀ a ∈ cascadeSeedQueue st checklistId changedItemId, a ∈ cascadeUniverse st := by
  unfold cascadeSeedQueue
  apply foldl_preserves (fun q => ∀ a ∈ q, a ∈ cascadeUniverse st)
  · apply foldl_preserves (fun q => ∀ a ∈ q, a ∈ cascadeUniverse st)
    · intro a ha; simp at ha
    · intro q pr hpr hqq a ha
      split at ha
      · exact hqq a ha
      · rcases List.mem_append.mp ha with h | h
        · exact hqq a h
        · have : a = pr.itemId := by simpa using h
          subst this
          have hmem : pr ∈ st.prereqs := (List.mem_filter.mp hpr).1
          exact List.mem_append.mpr
            (Or.inr (List.mem_map_of_mem (fun p => p.itemId) hmem))
  · intro q ci hci hqq a ha
    split at ha
    · exact hqq a ha
    · split at ha
      · split at ha
        · exact hqq a ha
        · rcases List.mem_append.mp ha with h | h
          · exact hqq a h
          · have : a = ci.id := by simpa using h
            subst this
            have hmem : ci ∈ st.items := (List.mem_filter.mp hci).1
            exact List.mem_append.mpr
              (Or.inl (List.mem_map_of_mem (fun i => i.id) hmem))
      · exact hqq a ha

theorem cascadeSeedQueue_length (st : State) (checklistId changedItemId : Nat) :
    (cascadeSeedQueue st checklistId changedItemId).length ≤
      st.prereqs.length + st.items.length := by
  unfold cascadeSeedQueue
  have h1 := foldl_length_le
    (fun q (pr : ItemPrerequisite) =>
      if pr.itemId ∈ [changedItemId] then q else q ++ [pr.itemId])
    (by
      intro q pr
      show (if pr.itemId ∈ [changedItemId] then q else q ++ [pr.itemId]).length ≤
        q.length + 1
      split
      · omega
      · simp)
    (st.prereqs.filter (fun p => p.prerequisiteItemId == some changedItemId)) []
  have h2 := foldl_length_le
    (fun q (ci : Item) =>
      if ci.id == changedItemId ∨ ci.id ∈ [changedItemId] then q
      else if (itemPrerequisites st ci.id).any
          (fun p => p.prerequisiteRewardId.isSome) then
        (if ci.id ∈ q then q else q ++ [ci.id])
      else q)
    (by
      intro q ci
      show (if ci.id == changedItemId ∨ ci.id ∈ [changedItemId] then q
        else if (itemPrerequisites st ci.id).any
            (fun p => p.prerequisiteRewardId.isSome) then
          (if ci.id ∈ q then q else q ++ [ci.id])
        else q).length ≤ q.length + 1
      split
      · omega
      · split
        · split
          · omega
          · simp
        · omega)
    (st.items.filter (fun ci => ci.checklistId == checklistId))
    ((st.prereqs.filter
        (fun p => p.prerequisiteItemId == some changedItemId)).foldl
      (fun q pr => if pr.itemId ∈ [changedItemId] then q else q ++ [pr.itemId]) [])
  have h3 := List.length_filter_le
    (fun p => p.prerequisiteItemId == some changedItemId) st.prereqs
  have h4 := List.length_filter_le (fun ci => ci.checklistId == checklistId) st.items
  simp only [List.length_nil] at h1
  omega

theorem get_affected_items_recursive_isSome (st : State)
    (checklistId uclId changedItemId : Nat) (b : Bool) :
    (get_affected_items_recursive st checklistId uclId changedItemId b).isSome := by
  unfold get_affected_items_recursive
  split
  · simp
  · apply cascadeLoop_isSome st uclId checklistId (cascadeFuel st)
      (cascadeSeedQueue st checklistId changedItemId) [changedItemId] [] []
      (cascadeSeedQueue_universe st checklistId changedItemId)
    have h1 := unprocessedCount_le st [changedItemId]
    have h2 := cascadeSeedQueue_length st checklistId changedItemId
    have h3 := Nat.mul_le_mul_left (st.items.length + st.prereqs.length + 1) h1
    have h4 : cascadeFuel st =
        (st.items.length + st.prereqs.length + 1) *
          (st.items.length + st.prereqs.length)
          + (st.items.length + st.prereqs.length) + 1 := by
      unfold cascadeFuel
      ring
    omega

/-- C4: for every prerequisite graph, including cyclic ones, the
chain-aware satisfaction check at its canonical fuel and the cascade
computation both complete (return a value instead of exhausting the fuel
that models the source's bounded recursion): the in-progress set threaded
through the satisfaction check grows by one item per level, and the
cascade's processed set grows monotonically and is bounded by the finite
row count. -/
theorem C4_cycle_safety :
    (∀ (st : State) (uclId : Option Nat) (item : Item), item ∈ st.items →
      (are_prerequisites_met_with_chaining st uclId (chainFuel st) item []).isSome) ∧
    (∀ (st : State) (checklistId uclId changedItemId : Nat) (isNowCompleted : Bool),
      (get_affected_items_recursive st checklistId uclId changedItemId
        isNowCompleted).isSome) :=
  ⟨fun st uclId item h => chaining_chainFuel_isSome st uclId item h,
   fun st checklistId uclId changedItemId b =>
    get_affected_items_recursive_isSome st checklistId uclId changedItemId b⟩

/-- Witness for C4 on the cyclic snapshot (item 1 requires item 2 and item
2 requires item 1): both computations complete. -/
theorem C4_cycle_safety_witness :
    (mkItem 1 ∈ cyclicScenario.items ∧
      (are_prerequisites_met_with_chaining cyclicScenario (some 5)
        (chainFuel cyclicScenario) (mkItem 1) []).isSome) ∧
    (get_affected_items_recursive cyclicScenario 1 5 1 true).isSome :=
  ⟨⟨by decide,
    C4_cycle_safety.1 cyclicScenario (some 5) (mkItem 1) (by decide)⟩,
   C4_cycle_safety.2 cyclicScenario 1 5 1 true⟩

/-! ## Contents of the unmet list -/

theorem chainStep_unmet_mem (st : State) (uclId : Option Nat)
    (recur : Item → List Nat → Option (Bool × List ItemPrerequisite × List Nat))
    (acc : List ItemPrerequisite × List Nat) (p : ItemPrerequisite)
    (r : List ItemPrerequisite × List Nat)
    (h : chainStep st uclId recur acc p = some r) :
    ∀ q ∈ r.1, q ∈ acc.1 ∨ (q = p ∧
      (p.prerequisiteItemId.isSome ∨ p.prerequisiteRewardId.isSome)) := by
  cases hit : p.prerequisiteItemId with
  | some reqId =>
    cases uclId with
    | some u =>
      cases hprog : findProgress st u reqId with
      | some prog =>
        cases hc : prog.completed with
        | true =>
          cases hfind : findItem st reqId with
          | some reqItem =>
            cases hrec : recur reqItem acc.2 with
            | some rr =>
              simp only [chainStep, hit, hprog, hc, hfind, hrec, if_true] at h
              cases h
              intro q hq
              by_cases hr1 : rr.1 = true
              · rw [if_pos hr1] at hq
                exact Or.inl hq
              · rw [if_neg hr1] at hq
                rcases List.mem_append.mp hq with hqa | hqp
                · exact Or.inl hqa
                · exact Or.inr ⟨by simpa using hqp, by simp⟩
            | none => simp [chainStep, hit, hprog, hc, hfind, hrec] at h
          | none =>
            simp only [chainStep, hit, hprog, hc, hfind, if_true] at h
            cases h
            intro q hq
            exact Or.inl hq
        | false =>
          simp only [chainStep, hit, hprog, hc, Bool.false_eq_true, if_false] at h
          cases h
          intro q hq
          rcases List.mem_append.mp hq with hqa | hqp
          · exact Or.inl hqa
          · exact Or.inr ⟨by simpa using hqp, by simp⟩
      | none =>
        simp only [chainStep, hit, hprog] at h
        cases h
        intro q hq
        rcases List.mem_append.mp hq with hqa | hqp
        · exact Or.inl hqa
        · exact Or.inr ⟨by simpa using hqp, by simp⟩
    | none =>
      simp only [chainStep, hit] at h
      cases h
      intro q hq
      rcases List.mem_append.mp hq with hqa | hqp
      · exact Or.inl hqa
      · exact Or.inr ⟨by simpa using hqp, by simp⟩
  | none =>
    cases hrw : p.prerequisiteRewardId with
    | some rid =>
      cases uclId with
      | some u =>
        cases hav : availFold st u rid p.rewardLocation p.rewardCategory acc.2 recur with
        | some collected =>
          simp only [chainStep, hit, hrw, hav] at h
          cases h
          intro q hq
          by_cases hlt : collected < pythonOr1 p.rewardAmount
          · rw [if_pos hlt] at hq
            rcases List.mem_append.mp hq with hqa | hqp
            · exact Or.inl hqa
            · exact Or.inr ⟨by simpa using hqp, by simp⟩
          · rw [if_neg hlt] at hq
            exact Or.inl hq
        | none => simp [chainStep, hit, hrw, hav] at h
      | none =>
        simp only [chainStep, hit, hrw] at h
        cases h
        intro q hq
        rcases List.mem_append.mp hq with hqa | hqp
        · exact Or.inl hqa
        · exact Or.inr ⟨by simpa using hqp, by simp⟩
    | none =>
      simp only [chainStep, hit, hrw] at h
      cases h
      intro q hq
      exact Or.inl hq

theorem foldlM_chainStep_unmet_mem (st : State) (uclId : Option Nat)
    (recur : Item → List Nat → Option (Bool × List ItemPrerequisite × List Nat)) :
    ∀ (l : List ItemPrerequisite) (acc r : List ItemPrerequisite × List Nat),
      l.foldlM (chainStep st uclId recur) acc = some r →
      ∀ q ∈ r.1, q ∈ acc.1 ∨ (q ∈ l ∧
        (q.prerequisiteItemId.isSome ∨ q.prerequisiteRewardId.isSome)) := by
  intro l
  induction l with
  | nil =>
    intro acc r h q hq
    simp only [List.foldlM_nil, pure, Option.some.injEq] at h
    cases h
    exact Or.inl hq
  | cons p l ih =>
    intro acc r h q hq
    rw [List.foldlM_cons] at h
    cases hstep : chainStep st uclId recur acc p with
    | some acc' =>
      rw [hstep] at h
      simp only [Option.bind_eq_bind, Option.some_bind] at h
      rcases ih acc' r h q hq with hq1 | ⟨hql, hqpop⟩
      · rcases chainStep_unmet_mem st uclId recur acc p acc' hstep q hq1 with hq2 | ⟨rfl, hpop⟩
        · exact Or.inl hq2
        · exact Or.inr ⟨List.mem_cons_self _ _, hpop⟩
      · exact Or.inr ⟨List.mem_cons_of_mem p hql, hqpop⟩
    | none => rw [hstep] at h; simp at h

/-- Every entry of the chain-aware unmet list is a populated item or
reward prerequisite. -/
theorem chaining_unmet_populated (st : State) (uclId : Option Nat) (fuel : Nat)
    (item : Item) (checked : List Nat) (r : Bool × List ItemPrerequisite × List Nat)
    (h : are_prerequisites_met_with_chaining st uclId fuel item checked = some r) :
    ∀ q ∈ r.2.1, q.prerequisiteItemId.isSome ∨ q.prerequisiteRewardId.isSome := by
  cases fuel with
  | zero => simp [are_prerequisites_met_with_chaining] at h
  | succ fuel =>
    rw [are_prerequisites_met_with_chaining] at h
    by_cases hmem : item.id ∈ checked
    · rw [if_pos hmem] at h
      cases h
      intro q hq
      simp at hq
    · rw [if_neg hmem] at h
      cases hfold : (itemPrerequisites st item.id).foldlM
          (chainStep st uclId
            (fun it ch => are_prerequisites_met_with_chaining st uclId fuel it ch))
          ([], item.id :: checked) with
      | some rr =>
        rw [hfold] at h
        cases h
        intro q hq
        rcases foldlM_chainStep_unmet_mem st uclId _ _ _ _ hfold q hq with hq1 | ⟨_, hpop⟩
        · simp at hq1
        · exact hpop
      | none => rw [hfold] at h; simp at h

theorem chainStep_unpopulated (st : State) (uclId : Option Nat)
    (recur : Item → List Nat → Option (Bool × List ItemPrerequisite × List Nat))
    (acc : List ItemPrerequisite × List Nat) (p : ItemPrerequisite)
    (hit : p.prerequisiteItemId = none) (hrw : p.prerequisiteRewardId = none) :
    chainStep st uclId recur acc p = some acc := by
  simp [chainStep, hit, hrw]

theorem foldlM_chainStep_unpopulated (st : State) (uclId : Option Nat)
    (recur : Item → List Nat → Option (Bool × List ItemPrerequisite × List Nat)) :
    ∀ (l : List ItemPrerequisite) (acc : List ItemPrerequisite × List Nat),
      (∀ p ∈ l, p.prerequisiteItemId = none ∧ p.prerequisiteRewardId = none) →
      l.foldlM (chainStep st uclId recur) acc = some acc := by
  intro l
  induction l with
  | nil => intro acc _; simp [List.foldlM_nil, pure]
  | cons p l ih =>
    intro acc hall
    rw [List.foldlM_cons, chainStep_unpopulated st uclId recur acc p
      (hall p (List.mem_cons_self p l)).1 (hall p (List.mem_cons_self p l)).2]
    simp only [Option.bind_eq_bind, Option.some_bind]
    exact ih acc (fun q hq => hall q (List.mem_cons_of_mem p hq))

/-- An item whose prerequisites are all unpopulated (freeform or empty) is
always satisfied by the chain-aware check, at any positive fuel. -/
theorem chaining_unpopulated_satisfied (st : State) (uclId : Option Nat)
    (fuel : Nat) (item : Item) (checked : List Nat) (hfuel : 0 < fuel)
    (hall : ∀ p ∈ itemPrerequisites st item.id,
      p.prerequisiteItemId = none ∧ p.prerequisiteRewardId = none) :
    ∃ ch, are_prerequisites_met_with_chaining st uclId fuel item checked =
      some (true, [], ch) := by
  cases fuel with
  | zero => omega
  | succ fuel =>
    rw [are_prerequisites_met_with_chaining]
    by_cases hmem : item.id ∈ checked
    · rw [if_pos hmem]
      exact ⟨checked, rfl⟩
    · rw [if_neg hmem]
      rw [foldlM_chainStep_unpopulated st uclId _ (itemPrerequisites st item.id)
        ([], item.id :: checked) hall]
      exact ⟨item.id :: checked, rfl⟩

/-- C9: in either mode the unmet list holds only populated item or reward
prerequisite records — a freeform prerequisite or a record with no
populated variant never appears in it — and an item with no prerequisites,
or with only freeform/no-variant ones, is always reported satisfied. -/
theorem C9_unmet_only_populated :
    (∀ (st : State) (item : Item) (uclId : Option Nat),
      ∀ q ∈ (are_prerequisites_met st item uclId).2,
        q.prerequisiteItemId.isSome ∨ q.prerequisiteRewardId.isSome) ∧
    (∀ (st : State) (item : Item) (uclId : Option Nat),
      (∀ q ∈ itemPrerequisites st item.id,
        q.prerequisiteItemId = none ∧ q.prerequisiteRewardId = none) →
      are_prerequisites_met st item uclId = (true, [])) ∧
    (∀ (st : State) (uclId : Option Nat) (fuel : Nat) (item : Item)
        (checked : List Nat) (r : Bool × List ItemPrerequisite × List Nat),
      are_prerequisites_met_with_chaining st uclId fuel item checked = some r →
      ∀ q ∈ r.2.1, q.prerequisiteItemId.isSome ∨ q.prerequisiteRewardId.isSome) ∧
    (∀ (st : State) (uclId : Option Nat) (fuel : Nat) (item : Item)
        (checked : List Nat), 0 < fuel →
      (∀ p ∈ itemPrerequisites st item.id,
        p.prerequisiteItemId = none ∧ p.prerequisiteRewardId = none) →
      ∃ ch, are_prerequisites_met_with_chaining st uclId fuel item checked =
        some (true, [], ch)) := by
  refine ⟨?_, ?_, ?_, ?_⟩
  · intro st item uclId q hq
    exact shallowUnmet_populated st uclId q ((mem_shallow_unmet st item uclId q).mp hq).2
  · intro st item uclId hall
    rw [are_prerequisites_met_eq]
    have hnil : (itemPrerequisites st item.id).filter (shallowUnmet st uclId) = [] := by
      rw [List.filter_eq_nil_iff]
      intro q hq
      have h := hall q hq
      simp [shallowUnmet, h.1, h.2]
    rw [hnil]
    rfl
  · intro st uclId fuel item checked r h q hq
    exact chaining_unmet_populated st uclId fuel item checked r h q hq
  · intro st uclId fuel item checked hfuel hall
    exact chaining_unpopulated_satisfied st uclId fuel item checked hfuel hall

/-- Witness for C9: the populated unmet entry of the blocked snapshot, the
always-satisfied verdicts of the freeform-only snapshot in both modes. -/
theorem C9_unmet_only_populated_witness :
    ((mkPrereqItem 1 1 2).prerequisiteItemId.isSome ∨
      (mkPrereqItem 1 1 2).prerequisiteRewardId.isSome) ∧
    are_prerequisites_met freeformScenario (mkItem 1) (some 5) = (true, []) ∧
    ((mkPrereqItem 1 1 2).prerequisiteItemId.isSome ∨
      (mkPrereqItem 1 1 2).prerequisiteRewardId.isSome) ∧
    (∃ ch, are_prerequisites_met_with_chaining freeformScenario (some 5)
      (chainFuel freeformScenario) (mkItem 1) [] = some (true, [], ch)) :=
  ⟨C9_unmet_only_populated.1 blockedScenario (mkItem 1) (some 5)
      (mkPrereqItem 1 1 2) (by decide),
   C9_unmet_only_populated.2.1 freeformScenario (mkItem 1) (some 5) (by decide),
   C9_unmet_only_populated.2.2.1 blockedScenario (some 5)
      (chainFuel blockedScenario) (mkItem 1) []
      (false, [mkPrereqItem 1 1 2], [1]) (by decide)
      (mkPrereqItem 1 1 2) (by decide),
   C9_unmet_only_populated.2.2.2 freeformScenario (some 5)
      (chainFuel freeformScenario) (mkItem 1) [] (by decide) (by decide)⟩

/-! ## Reward-prerequisite gating compares against collected, not available -/

theorem foldlM_chainStep_rewardOnly (st : State) (u : Nat)
    (recur : Item → List Nat → Option (Bool × List ItemPrerequisite × List Nat)) :
    ∀ (l : List ItemPrerequisite) (acc r : List ItemPrerequisite × List Nat),
      (∀ p ∈ l, p.prerequisiteItemId = none ∧ p.prerequisiteRewardId.isSome) →
      l.foldlM (chainStep st (some u) recur) acc = some r →
      r.2 = acc.2 ∧ ∀ q, (q ∈ r.1 ↔ q ∈ acc.1 ∨ (q ∈ l ∧
        ∃ rid c, q.prerequisiteRewardId = some rid ∧
          availFold st u rid q.rewardLocation q.rewardCategory acc.2 recur = some c ∧
          c < pythonOr1 q.rewardAmount)) := by
  intro l
  induction l with
  | nil =>
    intro acc r _ h
    simp only [List.foldlM_nil, pure, Option.some.injEq] at h
    subst h
    exact ⟨rfl, by simp⟩
  | cons p l ih =>
    intro acc r hall h
    obtain ⟨hit, hrws⟩ := hall p (List.mem_cons_self p l)
    obtain ⟨rid, hrw⟩ := Option.isSome_iff_exists.mp hrws
    rw [List.foldlM_cons] at h
    cases hav : availFold st u rid p.rewardLocation p.rewardCategory acc.2 recur with
    | none =>
      rw [show chainStep st (some u) recur acc p = none by
        simp [chainStep, hit, hrw, hav]] at h
      simp at h
    | some collected =>
      have hstep : chainStep st (some u) recur acc p =
          some (if collected < pythonOr1 p.rewardAmount then acc.1 ++ [p] else acc.1,
            acc.2) := by
        simp [chainStep, hit, hrw, hav]
      rw [hstep] at h
      simp only [Option.bind_eq_bind, Option.some_bind] at h
      obtain ⟨hr2, hiff⟩ := ih _ r (fun q hq => hall q (List.mem_cons_of_mem p hq)) h
      refine ⟨hr2, ?_⟩
      intro q
      rw [hiff q]
      constructor
      · rintro (hq | ⟨hql, hD⟩)
        · by_cases hlt : collected < pythonOr1 p.rewardAmount
          · rw [if_pos hlt] at hq
            rcases List.mem_append.mp hq with hqa | hqp
            · exact Or.inl hqa
            · have hqep : q = p := by simpa using hqp
              subst hqep
              exact Or.inr ⟨List.mem_cons_self q l, rid, collected, hrw, hav, hlt⟩
          · rw [if_neg hlt] at hq
            exact Or.inl hq
        · exact Or.inr ⟨List.mem_cons_of_mem p hql, hD⟩
      · rintro (hq | ⟨hql, hD⟩)
        · by_cases hlt : collected < pythonOr1 p.rewardAmount
          · rw [if_pos hlt]
            exact Or.inl (List.mem_append.mpr (Or.inl hq))
          · rw [if_neg hlt]
            exact Or.inl hq
        · rcases List.mem_cons.mp hql with hqep | hql2
          · subst hqep
            obtain ⟨rid2, c2, hrw2, hav2, hlt2⟩ := hD
            rw [hrw] at hrw2
            injection hrw2 with heq
            subst heq
            rw [hav] at hav2
            injection hav2 with heq2
            subst heq2
            rw [if_pos hlt2]
            exact Or.inl (List.mem_append.mpr (Or.inr (by simp)))
          · exact Or.inr ⟨hql2, hD⟩

theorem chaining_rewardOnly_unmet (st : State) (u fuel : Nat) (item : Item)
    (r : Bool × List ItemPrerequisite × List Nat)
    (hall : ∀ p ∈ itemPrerequisites st item.id,
      p.prerequisiteItemId = none ∧ p.prerequisiteRewardId.isSome)
    (h : are_prerequisites_met_with_chaining st (some u) (fuel + 1) item [] = some r) :
    ∀ p ∈ itemPrerequisites st item.id, ∀ rid, p.prerequisiteRewardId = some rid →
      (p ∈ r.2.1 ↔ ∃ c, get_available_rewards_with_chaining st u rid
          p.rewardLocation p.rewardCategory [item.id] fuel = some c ∧
        c < pythonOr1 p.rewardAmount) := by
  rw [are_prerequisites_met_with_chaining] at h
  rw [if_neg (by simp)] at h
  cases hfold : (itemPrerequisites st item.id).foldlM
      (chainStep st (some u)
        (fun it ch => are_prerequisites_met_with_chaining st (some u) fuel it ch))
      ([], [item.id]) with
  | some rr =>
    rw [hfold] at h
    cases h
    intro p hp rid hrw
    obtain ⟨_, hiff⟩ := foldlM_chainStep_rewardOnly st u _
      (itemPrerequisites st item.id) ([], [item.id]) rr hall hfold
    rw [hiff p]
    simp only [List.not_mem_nil, false_or]
    constructor
    · rintro ⟨_, rid2, c, hrw2, hav, hlt⟩
      rw [hrw] at hrw2
      injection hrw2 with heq
      subst heq
      exact ⟨c, hav, hlt⟩
    · rintro ⟨c, hav, hlt⟩
      exact ⟨hp, rid, c, hrw, hav, hlt⟩
  | none => rw [hfold] at h; simp at h

theorem shallow_reward_unmet_iff (st : State) (item : Item) (u : Nat)
    (hucl : (findUserChecklist st u).isSome)
    (p : ItemPrerequisite) (rid : Nat) (hit : p.prerequisiteItemId = none)
    (hrw : p.prerequisiteRewardId = some rid) :
    p ∈ (are_prerequisites_met st item (some u)).2 ↔
      p ∈ itemPrerequisites st item.id ∧
        get_reward_tally st u rid p.rewardLocation p.rewardCategory <
          pythonOr1 p.rewardAmount := by
  rw [mem_shallow_unmet]
  obtain ⟨ucl, hu⟩ := Option.isSome_iff_exists.mp hucl
  simp [shallowUnmet, hit, hrw, hu]

/-- C1 counterexample: in the consumed-pool snapshot the available amount
of reward 10 (collected 2 minus consumed 2, clamped) is below the required
2 units of item 2's reward prerequisite, yet both the shallow and the
chain-aware satisfaction checks report the prerequisite met, because they
compare against the collected tally and never subtract consumption. -/
theorem C1_counterexample :
    get_available_rewards consumedPoolScenario 5 10 none none <
        pythonOr1 (some 2) ∧
      (are_prerequisites_met consumedPoolScenario (mkItem 2) (some 5)).1 = true ∧
      chainSatisfied consumedPoolScenario 5 (chainFuel consumedPoolScenario)
        (mkItem 2) = true := by
  decide

/-- C1 (amended): a reward prerequisite is reported unmet exactly when the
collected tally — raw `get_reward_tally` in shallow mode, the chain-aware
collected tally in chained mode — under the prerequisite's filters is
below the required amount; consumption by consuming prerequisites
elsewhere does not reduce the pool the comparison uses.  The chained form
is stated for items whose prerequisites are all reward prerequisites,
where the in-progress set threaded through the loop stays constant. -/
theorem C1_amended_collected_gate :
    (∀ (st : State) (item : Item) (u : Nat), (findUserChecklist st u).isSome →
      ∀ (p : ItemPrerequisite) (rid : Nat), p.prerequisiteItemId = none →
        p.prerequisiteRewardId = some rid →
        (p ∈ (are_prerequisites_met st item (some u)).2 ↔
          p ∈ itemPrerequisites st item.id ∧
            get_reward_tally st u rid p.rewardLocation p.rewardCategory <
              pythonOr1 p.rewardAmount)) ∧
    (∀ (st : State) (u fuel : Nat) (item : Item)
        (r : Bool × List ItemPrerequisite × List Nat),
      (∀ p ∈ itemPrerequisites st item.id,
        p.prerequisiteItemId = none ∧ p.prerequisiteRewardId.isSome) →
      are_prerequisites_met_with_chaining st (some u) (fuel + 1) item [] = some r →
      ∀ p ∈ itemPrerequisites st item.id, ∀ rid, p.prerequisiteRewardId = some rid →
        (p ∈ r.2.1 ↔ ∃ c, get_available_rewards_with_chaining st u rid
            p.rewardLocation p.rewardCategory [item.id] fuel = some c ∧
          c < pythonOr1 p.rewardAmount)) :=
  ⟨fun st item u hucl p rid hit hrw =>
    shallow_reward_unmet_iff st item u hucl p rid hit hrw,
   fun st u fuel item r hall h p hp rid hrw =>
    chaining_rewardOnly_unmet st u fuel item r hall h p hp rid hrw⟩

/-- Witness for the amended C1 on the consumed-pool snapshot: both iff
forms instantiated at item 2's reward prerequisite. -/
theorem C1_amended_collected_gate_witness :
    (mkPrereqReward 1 2 10 2 false ∈
        (are_prerequisites_met consumedPoolScenario (mkItem 2) (some 5)).2 ↔
      mkPrereqReward 1 2 10 2 false ∈ itemPrerequisites consumedPoolScenario 2 ∧
        get_reward_tally consumedPoolScenario 5 10 none none <
          pythonOr1 (some 2)) ∧
    (mkPrereqReward 1 2 10 2 false ∈ ((true, [], [2]) :
        Bool × List ItemPrerequisite × List Nat).2.1 ↔
      ∃ c, get_available_rewards_with_chaining consumedPoolScenario 5 10
          none none [2] 3 = some c ∧ c < pythonOr1 (some 2)) :=
  ⟨C1_amended_collected_gate.1 consumedPoolScenario (mkItem 2) 5 (by decide)
      (mkPrereqReward 1 2 10 2 false) 10 (by decide) (by decide),
   C1_amended_collected_gate.2 consumedPoolScenario 5 3 (mkItem 2)
      (true, [], [2]) (by decide) (by decide)
      (mkPrereqReward 1 2 10 2 false) (by decide) 10 (by decide)⟩

/-! ## Chain-aware collected tally counts exactly the satisfied granters -/

theorem foldlM_availStep_sum (st : State) (u fuel : Nat) :
    ∀ (l : List (Item × ItemReward)) (tot t : Int),
      (l.foldlM (fun (tot : Int) pr =>
        if pr.1.id ∈ ([] : List Nat) then some tot
        else
          match are_prerequisites_met_with_chaining st (some u) fuel pr.1 [] with
          | some r => some (if r.1 then tot + pr.2.amount else tot)
          | none => none) tot) = some t →
      t = tot + ((l.filter (fun pr => chainSatisfied st u fuel pr.1)).map
        (fun pr => pr.2.amount)).sum := by
  intro l
  induction l with
  | nil =>
    intro tot t h
    simp only [List.foldlM_nil, pure, Option.some.injEq] at h
    subst h
    simp
  | cons pr l ih =>
    intro tot t h
    rw [List.foldlM_cons] at h
    rw [if_neg (by simp)] at h
    cases hc : are_prerequisites_met_with_chaining st (some u) fuel pr.1 [] with
    | none => rw [hc] at h; simp at h
    | some r =>
      rw [hc] at h
      simp only [Option.bind_eq_bind, Option.some_bind] at h
      have hrec := ih _ t h
      have hsat : chainSatisfied st u fuel pr.1 = r.1 := by
        simp [chainSatisfied, hc]
      cases hr1 : r.1 with
      | true =>
        rw [hr1] at hsat
        rw [List.filter_cons, hsat]
        simp only [if_true, List.map_cons, List.sum_cons]
        rw [if_pos hr1] at hrec
        omega
      | false =>
        rw [hr1] at hsat
        rw [List.filter_cons, hsat]
        simp only [Bool.false_eq_true, if_false]
        rw [if_neg (by simp [hr1])] at hrec
        exact hrec

/-- C5: whenever the chain-aware collected tally completes from an empty
in-progress set, it equals the sum of grant amounts over exactly those
completed, filter-matching granting items whose own prerequisites are met
by the chain-aware check — a completed-but-unsatisfied granting item
contributes nothing even though its stored completed flag is true. -/
theorem C5_chained_collected (st : State) (u rewardId : Nat)
    (location category : Option String) (fuel : Nat) (t : Int)
    (hucl : (findUserChecklist st u).isSome)
    (h : get_available_rewards_with_chaining st u rewardId location category []
      fuel = some t) :
    t = collectedChainedSpec st u rewardId location category fuel := by
  unfold get_available_rewards_with_chaining availFold at h
  split at h
  · rename_i heq
    rw [heq] at hucl
    simp at hucl
  · have := foldlM_availStep_sum st u fuel
      (chainRewardJoin st u rewardId location category) 0 t h
    unfold collectedChainedSpec
    omega

/-- Witness for C5 on the stale-granter snapshot: the grant of the
completed-but-unsatisfied item 1 contributes nothing, so the tally is 0. -/
theorem C5_chained_collected_witness :
    get_available_rewards_with_chaining staleGrantScenario 5 10 none none []
        (chainFuel staleGrantScenario) = some 0 ∧
      (0 : Int) = collectedChainedSpec staleGrantScenario 5 10 none none
        (chainFuel staleGrantScenario) :=
  ⟨by decide,
   C5_chained_collected staleGrantScenario 5 10 none none
      (chainFuel staleGrantScenario) 0 (by decide) (by decide)⟩

/-! ## Cascade classification is by current chain-aware state -/

theorem cascadeLoop_classification (st : State) (uclId checklistId changed : Nat) :
    ∀ (fuel : Nat) (queue processed unlocked locked : List Nat)
      (res : List Nat × List Nat),
      cascadeLoop st uclId checklistId fuel queue processed unlocked locked =
        some res →
      (∀ id ∈ unlocked, ∃ item, findItem st id = some item ∧
        item.checklistId = checklistId ∧
        chainSatisfied st uclId (chainFuel st) item = true) →
      (∀ id ∈ locked, ∃ item, findItem st id = some item ∧
        item.checklistId = checklistId ∧
        chainSatisfied st uclId (chainFuel st) item = false) →
      (∀ id ∈ unlocked, id ∈ processed) →
      (∀ id ∈ locked, id ∈ processed) →
      changed ∈ processed →
      (∀ id ∈ unlocked, id ≠ changed) →
      (∀ id ∈ locked, id ≠ changed) →
      (∀ id ∈ unlocked, id ∉ locked) →
      ((∀ id ∈ res.1, ∃ item, findItem st id = some item ∧
          item.checklistId = checklistId ∧
          chainSatisfied st uclId (chainFuel st) item = true) ∧
        (∀ id ∈ res.2, ∃ item, findItem st id = some item ∧
          item.checklistId = checklistId ∧
          chainSatisfied st uclId (chainFuel st) item = false) ∧
        (∀ id ∈ res.1, id ≠ changed) ∧
        (∀ id ∈ res.2, id ≠ changed) ∧
        (∀ id ∈ res.1, id ∉ res.2)) := by
  intro fuel
  induction fuel with
  | zero =>
    intro queue processed unlocked locked res h
    simp [cascadeLoop] at h
  | succ fuel ih =>
    intro queue processed unlocked locked res h hu hl hup hlp hch hnu hnl hdisj
    cases queue with
    | nil =>
      simp only [cascadeLoop, Option.some.injEq] at h
      subst h
      exact ⟨hu, hl, hnu, hnl, hdisj⟩
    | cons itemId rest =>
      simp only [cascadeLoop] at h
      by_cases hp : itemId ∈ processed
      · rw [if_pos hp] at h
        exact ih rest processed unlocked locked res h hu hl hup hlp hch hnu hnl hdisj
      · rw [if_neg hp] at h
        have hlift : ∀ id ∈ processed, id ∈ itemId :: processed :=
          fun id hid => List.mem_cons_of_mem itemId hid
        split at h
        · exact ih rest (itemId :: processed) unlocked locked res h hu hl
            (fun id hid => hlift id (hup id hid))
            (fun id hid => hlift id (hlp id hid)) (hlift changed hch) hnu hnl hdisj
        · rename_i item hfind
          split at h
          · exact ih rest (itemId :: processed) unlocked locked res h hu hl
              (fun id hid => hlift id (hup id hid))
              (fun id hid => hlift id (hlp id hid)) (hlift changed hch) hnu hnl hdisj
          · rename_i hcl
            have hclEq : item.checklistId = checklistId := by
              by_contra hne
              exact hcl hne
            split at h
            · simp at h
            · rename_i r hcq
              by_cases hr1 : r.1 = true
              · rw [if_pos hr1] at h
                by_cases hmemu : itemId ∈ unlocked
                · rw [if_pos hmemu] at h
                  exact ih rest (itemId :: processed) unlocked locked res h hu hl
                    (fun id hid => hlift id (hup id hid))
                    (fun id hid => hlift id (hlp id hid)) (hlift changed hch) hnu hnl hdisj
                · rw [if_neg hmemu] at h
                  apply ih _ (itemId :: processed) (unlocked ++ [itemId]) locked res h
                  · intro id hid
                    rcases List.mem_append.mp hid with hold | hnew
                    · exact hu id hold
                    · have : id = itemId := by simpa using hnew
                      subst this
                      exact ⟨item, hfind, hclEq, by simp [chainSatisfied, hcq, hr1]⟩
                  · exact hl
                  · intro id hid
                    rcases List.mem_append.mp hid with hold | hnew
                    · exact hlift id (hup id hold)
                    · have : id = itemId := by simpa using hnew
                      subst this
                      exact List.mem_cons_self _ _
                  · exact fun id hid => hlift id (hlp id hid)
                  · exact hlift changed hch
                  · intro id hid
                    rcases List.mem_append.mp hid with hold | hnew
                    · exact hnu id hold
                    · have : id = itemId := by simpa using hnew
                      subst this
                      exact fun heq => hp (heq ▸ hch)
                  · exact hnl
                  · intro id hid
                    rcases List.mem_append.mp hid with hold | hnew
                    · exact hdisj id hold
                    · have : id = itemId := by simpa using hnew
                      subst this
                      exact fun hmem => hp (hlp id hmem)
              · rw [if_neg hr1] at h
                by_cases hmeml : itemId ∈ locked
                · rw [if_pos hmeml] at h
                  exact ih rest (itemId :: processed) unlocked locked res h hu hl
                    (fun id hid => hlift id (hup id hid))
                    (fun id hid => hlift id (hlp id hid)) (hlift changed hch) hnu hnl hdisj
                · rw [if_neg hmeml] at h
                  apply ih _ (itemId :: processed) unlocked (locked ++ [itemId]) res h
                  · exact hu
                  · intro id hid
                    rcases List.mem_append.mp hid with hold | hnew
                    · exact hl id hold
                    · have : id = itemId := by simpa using hnew
                      subst this
                      have hfalse : r.1 = false := by
                        cases hb : r.1
                        · rfl
                        · exact absurd hb hr1
                      exact ⟨item, hfind, hclEq, by simp [chainSatisfied, hcq, hfalse]⟩
                  · exact fun id hid => hlift id (hup id hid)
                  · intro id hid
                    rcases List.mem_append.mp hid with hold | hnew
                    · exact hlift id (hlp id hold)
                    · have : id = itemId := by simpa using hnew
                      subst this
                      exact List.mem_cons_self _ _
                  · exact hlift changed hch
                  · exact hnu
                  · intro id hid
                    rcases List.mem_append.mp hid with hold | hnew
                    · exact hnl id hold
                    · have : id = itemId := by simpa using hnew
                      subst this
                      exact fun heq => hp (heq ▸ hch)
                  · intro id hid hmem
                    rcases List.mem_append.mp hmem with hold | hnew
                    · exact hdisj id hid hold
                    · have : id = itemId := by simpa using hnew
                      subst this
                      exact hp (hup id hid)

/-- C3 counterexample: in the steady snapshot, item 2 was chain-satisfied
both before and after the toggle of item 1 (its reward need is covered by
the unrelated completed item 4), yet the cascade reports it in the
unlocked list — classification ignores the prior state. -/
theorem C3_counterexample :
    chainSatisfied steadyScenarioBefore 5 (chainFuel steadyScenarioBefore)
        (mkItem 2) = true ∧
      chainSatisfied steadyScenario 5 (chainFuel steadyScenario) (mkItem 2) = true ∧
      get_affected_items_recursive steadyScenario 1 5 1 true = some ([2], []) := by
  decide

/-- C3 (amended): an item id appears in the unlocked (respectively locked)
list only if it is a checklist item, distinct from the toggled item, whose
current chain-aware satisfied state after the toggle is satisfied
(respectively unsatisfied); the two lists are disjoint.  Classification is
by current state, not by comparison with the state before the toggle. -/
theorem C3_amended_classification (st : State) (checklistId uclId changed : Nat)
    (b : Bool) (unl lck : List Nat)
    (h : get_affected_items_recursive st checklistId uclId changed b =
      some (unl, lck)) :
    (∀ id ∈ unl, ∃ item, findItem st id = some item ∧
      item.checklistId = checklistId ∧
      chainSatisfied st uclId (chainFuel st) item = true) ∧
    (∀ id ∈ lck, ∃ item, findItem st id = some item ∧
      item.checklistId = checklistId ∧
      chainSatisfied st uclId (chainFuel st) item = false) ∧
    (∀ id ∈ unl, id ≠ changed) ∧
    (∀ id ∈ lck, id ≠ changed) ∧
    (∀ id ∈ unl, id ∉ lck) := by
  unfold get_affected_items_recursive at h
  split at h
  · simp only [Option.some.injEq, Prod.mk.injEq] at h
    obtain ⟨h1, h2⟩ := h
    subst h1
    subst h2
    refine ⟨?_, ?_, ?_, ?_, ?_⟩ <;> intro id hid <;> simp at hid
  · exact cascadeLoop_classification st uclId checklistId changed (cascadeFuel st)
      (cascadeSeedQueue st checklistId changed) [changed] [] [] (unl, lck) h
      (fun id hid => by simp at hid) (fun id hid => by simp at hid)
      (fun id hid => by simp at hid) (fun id hid => by simp at hid)
      (List.mem_cons_self changed []) (fun id hid => by simp at hid)
      (fun id hid => by simp at hid) (fun id hid => by simp at hid)

/-- Witness for the amended C3 on the steady snapshot. -/
theorem C3_amended_classification_witness :
    (∀ id ∈ [2], ∃ item, findItem steadyScenario id = some item ∧
      item.checklistId = 1 ∧
      chainSatisfied steadyScenario 5 (chainFuel steadyScenario) item = true) ∧
    (∀ id ∈ ([] : List Nat), ∃ item, findItem steadyScenario id = some item ∧
      item.checklistId = 1 ∧
      chainSatisfied steadyScenario 5 (chainFuel steadyScenario) item = false) ∧
    (∀ id ∈ [2], id ≠ 1) ∧
    (∀ id ∈ ([] : List Nat), id ≠ 1) ∧
    (∀ id ∈ [2], id ∉ ([] : List Nat)) :=
  C3_amended_classification steadyScenario 1 5 1 true [2] [] (by decide)

/-! ## Reward tally engine and highlighter -/

/-- C2: the tally engine yields, for every state and filter combination, a
non-negative available amount equal to collected minus consumed whenever
collected covers consumption, and reproduces the reference scenario
(grants of 2+2, consumption of 1+2: collected 4, consumed 3, available 1). -/
theorem C2_tally_engine :
    (∀ (st : State) (uclId rewardId : Nat) (location category : Option String),
      0 ≤ get_available_rewards st uclId rewardId location category ∧
      (get_consumed_rewards st uclId rewardId location category ≤
          get_reward_tally st uclId rewardId location category →
        get_available_rewards st uclId rewardId location category =
          get_reward_tally st uclId rewardId location category -
            get_consumed_rewards st uclId rewardId location category)) ∧
    (get_reward_tally rewardScenario 5 10 none none = 4 ∧
      get_consumed_rewards rewardScenario 5 10 none none = 3 ∧
      get_available_rewards rewardScenario 5 10 none none = 1) := by
  constructor
  · intro st uclId rewardId location category
    constructor
    · exact le_max_left 0 _
    · intro hle
      exact max_eq_right (Int.sub_nonneg.mpr hle)
  · decide

/-- Witness for C2 on the reward scenario. -/
theorem C2_tally_engine_witness :
    0 ≤ get_available_rewards rewardScenario 5 10 none none ∧
    get_consumed_rewards rewardScenario 5 10 none none ≤
      get_reward_tally rewardScenario 5 10 none none ∧
    get_available_rewards rewardScenario 5 10 none none =
      get_reward_tally rewardScenario 5 10 none none -
        get_consumed_rewards rewardScenario 5 10 none none :=
  ⟨(C2_tally_engine.1 rewardScenario 5 10 none none).1, by decide,
   (C2_tally_engine.1 rewardScenario 5 10 none none).2 (by decide)⟩

theorem mem_dedup_append :
    ∀ (l : List ItemPrerequisite) (acc : List Nat) (id : Nat),
      (id ∈ l.foldl (fun a p => if p.itemId ∈ a then a else a ++ [p.itemId]) acc) ↔
        id ∈ acc ∨ ∃ p ∈ l, p.itemId = id := by
  intro l
  induction l with
  | nil => intro acc id; simp
  | cons p l ih =>
    intro acc id
    simp only [List.foldl_cons]
    by_cases hmem : p.itemId ∈ acc
    · rw [if_pos hmem, ih]
      constructor
      · rintro (h | ⟨q, hq, rfl⟩)
        · exact Or.inl h
        · exact Or.inr ⟨q, List.mem_cons_of_mem p hq, rfl⟩
      · rintro (h | ⟨q, hq, rfl⟩)
        · exact Or.inl h
        · rcases List.mem_cons.mp hq with heq | hq2
          · subst heq
            exact Or.inl hmem
          · exact Or.inr ⟨q, hq2, rfl⟩
    · rw [if_neg hmem, ih]
      constructor
      · rintro (h | ⟨q, hq, rfl⟩)
        · rcases List.mem_append.mp h with h2 | h2
          · exact Or.inl h2
          · have hid : id = p.itemId := by simpa using h2
            exact Or.inr ⟨p, List.mem_cons_self p l, hid.symm⟩
        · exact Or.inr ⟨q, List.mem_cons_of_mem p hq, rfl⟩
      · rintro (h | ⟨q, hq, rfl⟩)
        · exact Or.inl (List.mem_append.mpr (Or.inl h))
        · rcases List.mem_cons.mp hq with heq | hq2
          · subst heq
            exact Or.inl (List.mem_append.mpr (Or.inr (by simp)))
          · exact Or.inr ⟨q, hq2, rfl⟩

theorem mem_flagCombo_foldl (st : State) (uclId checklistId : Nat) :
    ∀ (combos : List (Nat × Option String × Option String)) (acc : List Nat)
      (id : Nat),
      (id ∈ combos.foldl (flagCombo st uclId checklistId) acc) ↔
        id ∈ acc ∨ ∃ combo ∈ combos,
          (get_reward_tally st uclId combo.1 combo.2.1 combo.2.2 <
            get_consumed_rewards st uclId combo.1 combo.2.1 combo.2.2) ∧
          ∃ p ∈ (consumingPrereqs st checklistId).filter (fun p =>
              p.prerequisiteRewardId == some combo.1
                && p.rewardLocation == combo.2.1
                && p.rewardCategory == combo.2.2
                && (completedItemIds st uclId).contains p.itemId),
            p.itemId = id := by
  intro combos
  induction combos with
  | nil => intro acc id; simp
  | cons c combos ih =>
    intro acc id
    simp only [List.foldl_cons]
    rw [ih]
    unfold flagCombo
    by_cases hdef : get_reward_tally st uclId c.1 c.2.1 c.2.2 <
        get_consumed_rewards st uclId c.1 c.2.1 c.2.2
    · rw [if_pos hdef, mem_dedup_append]
      constructor
      · rintro ((h | ⟨p, hp, rfl⟩) | ⟨combo, hc, hd, p, hp, rfl⟩)
        · exact Or.inl h
        · exact Or.inr ⟨c, List.mem_cons_self c combos, hdef, p, hp, rfl⟩
        · exact Or.inr ⟨combo, List.mem_cons_of_mem c hc, hd, p, hp, rfl⟩
      · rintro (h | ⟨combo, hc, hd, p, hp, rfl⟩)
        · exact Or.inl (Or.inl h)
        · rcases List.mem_cons.mp hc with heq | hc2
          · subst heq
            exact Or.inl (Or.inr ⟨p, hp, rfl⟩)
          · exact Or.inr ⟨combo, hc2, hd, p, hp, rfl⟩
    · rw [if_neg hdef]
      constructor
      · rintro (h | ⟨combo, hc, hd, p, hp, rfl⟩)
        · exact Or.inl h
        · exact Or.inr ⟨combo, List.mem_cons_of_mem c hc, hd, p, hp, rfl⟩
      · rintro (h | ⟨combo, hc, hd, p, hp, rfl⟩)
        · exact Or.inl h
        · rcases List.mem_cons.mp hc with heq | hc2
          · subst heq
            exact absurd hd hdef
          · exact Or.inr ⟨combo, hc2, hd, p, hp, rfl⟩

/-- C8: membership in the problematic-items result is fully characterised
set-theoretically — an item id is flagged exactly when it owns a completed
consuming reward prerequisite of the instance's checklist whose own
`(reward, location_filter, category_filter)` combination is in deficit
(consumed exceeds collected).  Hence every co-consumer of a deficient
combination is flagged, and the result is independent of iteration order. -/
theorem C8_insufficient_highlighting (st : State) (uclId id : Nat) :
    id ∈ get_items_with_insufficient_rewards st uclId ↔
      ∃ ucl, findUserChecklist st uclId = some ucl ∧
        ∃ p ∈ st.prereqs, p.itemId = id ∧ p.consumesReward = true ∧
          prereqInChecklist st ucl.checklistId p = true ∧
          (completedItemIds st uclId).contains p.itemId = true ∧
          ∃ rid, p.prerequisiteRewardId = some rid ∧
            get_reward_tally st uclId rid p.rewardLocation p.rewardCategory <
              get_consumed_rewards st uclId rid p.rewardLocation p.rewardCategory := by
  unfold get_items_with_insufficient_rewards
  split
  · rename_i heq
    simp only [List.not_mem_nil, false_iff]
    rintro ⟨ucl, hu, _⟩
    rw [heq] at hu
    cases hu
  · rename_i ucl heq
    rw [mem_flagCombo_foldl]
    simp only [List.not_mem_nil, false_or]
    constructor
    · rintro ⟨combo, hcombo, hdef, p, hpf, hpid⟩
      obtain ⟨hpc, hcond⟩ := List.mem_filter.mp hpf
      obtain ⟨hpmem, hpcond⟩ := List.mem_filter.mp hpc
      simp only [Bool.and_eq_true, beq_iff_eq] at hcond hpcond
      obtain ⟨⟨⟨hrw, hloc⟩, hcat⟩, hcompl⟩ := hcond
      obtain ⟨⟨hcons, _⟩, hinC⟩ := hpcond
      refine ⟨ucl, heq, p, hpmem, hpid, hcons, hinC, hcompl, combo.1, hrw, ?_⟩
      rw [hloc, hcat]
      exact hdef
    · rintro ⟨ucl2, hu2, p, hpmem, hpid, hcons, hinC, hcompl, rid, hrw, hdef⟩
      rw [heq] at hu2
      injection hu2 with hueq
      subst hueq
      have hpc : p ∈ consumingPrereqs st ucl.checklistId := by
        rw [consumingPrereqs, List.mem_filter]
        exact ⟨hpmem, by simp [hcons, hrw, hinC]⟩
      refine ⟨(rid, p.rewardLocation, p.rewardCategory), ?_, hdef, p, ?_, hpid⟩
      · exact List.mem_map.mpr ⟨p, hpc, by simp [hrw]⟩
      · have hcompl2 : p.itemId ∈ completedItemIds st uclId := by simpa using hcompl
        rw [List.mem_filter]
        exact ⟨hpc, by simp [hrw, hcompl2]⟩

/-- Witness for C8 on the deficit scenario: completed consumers 3 and 4 of
the over-consumed reward 10 are both flagged, and provider 1 is not. -/
theorem C8_insufficient_highlighting_witness :
    (3 ∈ get_items_with_insufficient_rewards deficitScenario 5 ↔
      ∃ ucl, findUserChecklist deficitScenario 5 = some ucl ∧
        ∃ p ∈ deficitScenario.prereqs, p.itemId = 3 ∧ p.consumesReward = true ∧
          prereqInChecklist deficitScenario ucl.checklistId p = true ∧
          (completedItemIds deficitScenario 5).contains p.itemId = true ∧
          ∃ rid, p.prerequisiteRewardId = some rid ∧
            get_reward_tally deficitScenario 5 rid p.rewardLocation
                p.rewardCategory <
              get_consumed_rewards deficitScenario 5 rid p.rewardLocation
                p.rewardCategory) ∧
    3 ∈ get_items_with_insufficient_rewards deficitScenario 5 ∧
    4 ∈ get_items_with_insufficient_rewards deficitScenario 5 ∧
    1 ∉ get_items_with_insufficient_rewards deficitScenario 5 :=
  ⟨C8_insufficient_highlighting deficitScenario 5 3, by decide, by decide, by decide⟩

/-! ## Toggle endpoint: frame, rejection and gate direction -/

theorem find?_cons_eq {α : Type} (pr : α → Bool) (a : α) (l : List α) :
    (a :: l).find? pr = if pr a then some a else l.find? pr := by
  by_cases h : pr a = true
  · rw [List.find?_cons_of_pos _ h, if_pos h]
  · rw [List.find?_cons_of_neg _ (by simpa using h), if_neg (by simpa using h)]

theorem find?_append_singleton {α : Type} (pr : α → Bool) (x : α)
    (hx : pr x = false) :
    ∀ l : List α, (l ++ [x]).find? pr = l.find? pr := by
  intro l
  induction l with
  | nil => simp [List.find?, hx]
  | cons a l ih =>
    rw [List.cons_append, find?_cons_eq, find?_cons_eq]
    by_cases ha : pr a = true
    · rw [if_pos ha, if_pos ha]
    · rw [if_neg (by simpa using ha), if_neg (by simpa using ha)]
      exact ih

theorem find?_map_toggled (l : List UserProgress) (a iid : Nat) (nc : Bool)
    (nat : Option Nat) (u j : Nat) (hne : j ≠ iid) :
    (l.map (fun p => if p.userChecklistId == a && p.itemId == iid then
        { p with completed := nc, completedAt := nat } else p)).find?
      (fun p => p.userChecklistId == u && p.itemId == j) =
    l.find? (fun p => p.userChecklistId == u && p.itemId == j) := by
  induction l with
  | nil => simp
  | cons p l ih =>
    simp only [List.map_cons]
    rw [find?_cons_eq, find?_cons_eq]
    by_cases hcond : (p.userChecklistId == a && p.itemId == iid) = true
    · rw [if_pos hcond]
      have hiid : p.itemId = iid := by
        simp only [Bool.and_eq_true, beq_iff_eq] at hcond
        exact hcond.2
      have hpred : (p.userChecklistId == u && p.itemId == j) = false := by
        simp [hiid, Ne.symm hne]
      have hpred2 : ((({ p with completed := nc, completedAt := nat } :
          UserProgress)).userChecklistId == u &&
          (({ p with completed := nc, completedAt := nat } :
            UserProgress)).itemId == j) = false := by
        simp [hiid, Ne.symm hne]
      rw [if_neg (by simp [hpred2]), if_neg (by simp [hpred])]
      exact ih
    · rw [if_neg hcond]
      by_cases hpred : (p.userChecklistId == u && p.itemId == j) = true
      · rw [if_pos hpred, if_pos hpred]
      · rw [if_neg (by simpa using hpred), if_neg (by simpa using hpred)]
        exact ih

theorem findProgress_toggledProgresses (st : State) (uclId itemId : Nat)
    (nc : Bool) (u j : Nat) (hne : j ≠ itemId) :
    (toggledProgresses st uclId itemId nc).find?
      (fun p => p.userChecklistId == u && p.itemId == j) =
    findProgress st u j := by
  unfold toggledProgresses
  split
  · exact find?_map_toggled st.progresses uclId itemId nc
      (if nc then some st.now else none) u j hne
  · exact find?_append_singleton _ _ (by simp [Ne.symm hne]) st.progresses

theorem toggleCommit_fst (st : State) (uclId checklistId itemId : Nat) (nc : Bool) :
    ∃ unl lck, (toggleCommit st uclId checklistId itemId nc).1 =
      ToggleResult.ok nc unl lck := by
  unfold toggleCommit
  split
  · rename_i e _
    exact ⟨e.1, e.2, rfl⟩
  · exact ⟨[], [], rfl⟩

/-- C6: a toggle request mutates no stored row except the progress row of
the toggled item itself — the item, reward, prerequisite and tracked
instance tables are unchanged, and every progress row of a different item
is returned unchanged; the cascade is a pure query on the committed
snapshot. -/
theorem C6_toggle_frame (st : State) (userId checklistId itemId : Nat)
    (r : ToggleResult) (st' : State)
    (h : toggle_progress st userId checklistId itemId = (r, st')) :
    st'.items = st.items ∧ st'.itemRewards = st.itemRewards ∧
    st'.prereqs = st.prereqs ∧ st'.userChecklists = st.userChecklists ∧
    ∀ (u j : Nat), j ≠ itemId → findProgress st' u j = findProgress st u j := by
  unfold toggle_progress at h
  split at h
  · cases h
    exact ⟨rfl, rfl, rfl, rfl, fun u j _ => rfl⟩
  · rename_i ucl hucl
    split at h
    · cases h
      exact ⟨rfl, rfl, rfl, rfl, fun u j _ => rfl⟩
    · rename_i item hitem
      split at h
      · cases h
        exact ⟨rfl, rfl, rfl, rfl, fun u j _ => rfl⟩
      · split at h
        · cases h
          exact ⟨rfl, rfl, rfl, rfl, fun u j _ => rfl⟩
        · unfold toggleCommit at h
          split at h
          · cases h
            refine ⟨rfl, rfl, rfl, rfl, ?_⟩
            intro u j hne
            exact findProgress_toggledProgresses st ucl.id itemId
              (!storedCompleted st ucl.id itemId) u j hne
          · cases h
            refine ⟨rfl, rfl, rfl, rfl, ?_⟩
            intro u j hne
            exact findProgress_toggledProgresses st ucl.id itemId
              (!storedCompleted st ucl.id itemId) u j hne

/-- Witness for C6: toggling item 1 of the stale-chain snapshot leaves the
other tables and item 2's progress row untouched. -/
theorem C6_toggle_frame_witness :
    (toggle_progress staleChainScenario 7 1 1).2.items =
        staleChainScenario.items ∧
      (toggle_progress staleChainScenario 7 1 1).2.itemRewards =
        staleChainScenario.itemRewards ∧
      (toggle_progress staleChainScenario 7 1 1).2.prereqs =
        staleChainScenario.prereqs ∧
      (toggle_progress staleChainScenario 7 1 1).2.userChecklists =
        staleChainScenario.userChecklists ∧
      findProgress (toggle_progress staleChainScenario 7 1 1).2 5 2 =
        findProgress staleChainScenario 5 2 :=
  have h := C6_toggle_frame staleChainScenario 7 1 1
    (toggle_progress staleChainScenario 7 1 1).1
    (toggle_progress staleChainScenario 7 1 1).2 rfl
  ⟨h.1, h.2.1, h.2.2.1, h.2.2.2.1, h.2.2.2.2 5 2 (by decide)⟩

/-- C7: an attempt to mark an item complete while its shallow
prerequisites are unmet is answered with the caller-visible
prerequisites-not-met result and commits nothing: the returned snapshot is
the unchanged input snapshot. -/
theorem C7_reject_leaves_state (st : State) (userId checklistId itemId : Nat)
    (ucl : UserChecklistRow) (item : Item)
    (hucl : st.userChecklists.find?
      (fun u => u.userId == userId && u.checklistId == checklistId) = some ucl)
    (hitem : findItem st itemId = some item)
    (hcl : item.checklistId = checklistId)
    (hnc : storedCompleted st ucl.id itemId = false)
    (hmet : (are_prerequisites_met st item (some ucl.id)).1 = false) :
    toggle_progress st userId checklistId itemId =
      (ToggleResult.prereqsNotMet, st) := by
  unfold toggle_progress
  simp only [hucl, hitem]
  rw [if_neg (by simp [hcl]), if_pos (by simp [hnc, hmet])]

/-- Witness for C7 on the blocked snapshot. -/
theorem C7_reject_leaves_state_witness :
    toggle_progress blockedScenario 7 1 1 =
      (ToggleResult.prereqsNotMet, blockedScenario) :=
  C7_reject_leaves_state blockedScenario 7 1 1 ⟨5, 7, 1⟩ (mkItem 1)
    (by decide) (by decide) (by decide) (by decide) (by decide)

/-- C10: the toggle gate applies only in the completing direction and
consults the shallow check: after successful lookups the request is
rejected exactly when the stored flag is false and the shallow check
fails; a stored-true item is always toggled off regardless of
prerequisites; and in the stale-chain snapshot — shallow check true,
chain-aware check false — marking the item complete succeeds. -/
theorem C10_shallow_gate_only_completing :
    (∀ (st : State) (userId checklistId itemId : Nat) (ucl : UserChecklistRow)
        (item : Item),
      st.userChecklists.find?
        (fun u => u.userId == userId && u.checklistId == checklistId) = some ucl →
      findItem st itemId = some item →
      item.checklistId = checklistId →
      (((toggle_progress st userId checklistId itemId).1 =
          ToggleResult.prereqsNotMet) ↔
        (storedCompleted st ucl.id itemId = false ∧
          (are_prerequisites_met st item (some ucl.id)).1 = false)) ∧
      (storedCompleted st ucl.id itemId = true →
        ∃ unl lck, (toggle_progress st userId checklistId itemId).1 =
          ToggleResult.ok false unl lck)) ∧
    ((are_prerequisites_met staleChainScenario (mkItem 1) (some 5)).1 = true ∧
      chainSatisfied staleChainScenario 5 (chainFuel staleChainScenario)
        (mkItem 1) = false ∧
      (toggle_progress staleChainScenario 7 1 1).1 =
        ToggleResult.ok true [] []) := by
  constructor
  · intro st userId checklistId itemId ucl item hucl hitem hcl
    have hbody : toggle_progress st userId checklistId itemId =
        (if !storedCompleted st ucl.id itemId
            && !(are_prerequisites_met st item (some ucl.id)).1 then
          (ToggleResult.prereqsNotMet, st)
        else toggleCommit st ucl.id checklistId itemId
          (!storedCompleted st ucl.id itemId)) := by
      unfold toggle_progress
      simp only [hucl, hitem]
      rw [if_neg (by simp [hcl])]
    by_cases hg : (!storedCompleted st ucl.id itemId
        && !(are_prerequisites_met st item (some ucl.id)).1) = true
    · rw [if_pos hg] at hbody
      constructor
      · rw [hbody]
        simp only [Bool.and_eq_true, Bool.not_eq_true'] at hg
        simp [hg.1, hg.2]
      · intro hstored
        simp only [Bool.and_eq_true, Bool.not_eq_true'] at hg
        rw [hg.1] at hstored
        cases hstored
    · rw [if_neg hg] at hbody
      obtain ⟨unl, lck, hfst⟩ := toggleCommit_fst st ucl.id checklistId itemId
        (!storedCompleted st ucl.id itemId)
      constructor
      · rw [hbody]
        constructor
        · intro hpm
          rw [hfst] at hpm
          cases hpm
        · rintro ⟨hstored, hmet⟩
          exact absurd (by simp [hstored, hmet]) hg
      · intro hstored
        rw [hbody, hstored]
        rw [hstored] at hfst
        exact ⟨unl, lck, by simpa using hfst⟩
  · exact ⟨by decide, by decide, by decide⟩

/-- Witness for C10 on the stale-chain snapshot. -/
theorem C10_shallow_gate_witness :
    (((toggle_progress staleChainScenario 7 1 1).1 =
        ToggleResult.prereqsNotMet) ↔
      (storedCompleted staleChainScenario 5 1 = false ∧
        (are_prerequisites_met staleChainScenario (mkItem 1) (some 5)).1 =
          false)) ∧
    (storedCompleted staleChainScenario 5 1 = true →
      ∃ unl lck, (toggle_progress staleChainScenario 7 1 1).1 =
        ToggleResult.ok false unl lck) :=
  C10_shallow_gate_only_completing.1 staleChainScenario 7 1 1 ⟨5, 7, 1⟩
    (mkItem 1) (by decide) (by decide) (by decide)
